import Mathlib

/-!
# AssimpOpengl: the model loader and its render loop

A shallow embedding of `nativeCode/common/assimpLoader.cpp` (class `AssimpLoader`) and, from
`nativeCode/modelAssimp/modelAssimp.cpp`, of the reload path `ModelAssimp::ResetModel` and of
the helper `split`.

* The Assimp scene (`aiScene`, `aiMesh`, `aiFace`, `aiMaterial`) is plain data.
* The OpenGL ES context is an explicit state `GLState`: the texture and buffer names that have
  been generated and not deleted, and the log of the calls issued so far, oldest first.
* The importer, the image decoder and `GetDirectoryName` are services outside the two files;
  they are the fields of `Env`.
* `unsigned int`, `GLuint` and `int` values are natural numbers; a count is the length of an
  array that the scene holds in memory.  The two products formed in 32 bits, three times a face
  count at line 74 and at line 354, are formed modulo `2 ^ 32`, as is the index stepped by 3 at
  line 81.
* `float` values are only copied, never computed with; they are carried as their bit patterns.
-/

namespace AssimpOpengl

/-! ## Scene data (Assimp) -/

/-- An OpenGL object name (`GLuint`); `0` is the reserved name of no object. -/
abbrev GLuint := Nat

/-- An IEEE single, as its bit pattern: the loader copies floats and never computes with them. -/
abbrev GLfloat := Nat

/-- The `aiVector3D` of Assimp: three floats. -/
structure aiVector3D where
  x : GLfloat
  y : GLfloat
  z : GLfloat
deriving DecidableEq, Repr

/-- The `aiFace` of Assimp: `mIndices` is the index array, `mNumIndices` its length. -/
structure aiFace where
  mIndices : List Nat
deriving DecidableEq, Repr

/-- The `aiMesh` of Assimp, restricted to the members the loader reads.  `mFaces` is the face
array (`mNumFaces` is its length); `mVertices` and `mTextureCoords` (channel 0 only) are `none`
for a null pointer and otherwise hold `mNumVertices` entries. -/
structure aiMesh where
  mFaces : List aiFace
  mNumVertices : Nat
  mVertices : Option (List aiVector3D)
  mTextureCoords : Option (List aiVector3D)
  mMaterialIndex : Nat
deriving DecidableEq, Repr

/-- The face count `mNumFaces` of a mesh. -/
def aiMesh.mNumFaces (mesh : aiMesh) : Nat := mesh.mFaces.length

/-- The `aiMesh::HasPositions()` of Assimp: `mVertices != nullptr && mNumVertices > 0`. -/
def aiMesh.HasPositions (mesh : aiMesh) : Bool :=
  mesh.mVertices.isSome && decide (0 < mesh.mNumVertices)

/-- The `aiMesh::HasTextureCoords(0)` of Assimp:
`mTextureCoords[0] != nullptr && mNumVertices > 0`. -/
def aiMesh.HasTextureCoords0 (mesh : aiMesh) : Bool :=
  mesh.mTextureCoords.isSome && decide (0 < mesh.mNumVertices)

/-- The `aiMaterial` of Assimp, restricted to its diffuse texture stack: `diffuse` lists the
file names that `GetTexture(aiTextureType_DIFFUSE, 0, ..)`, `(.., 1, ..)`, ... return, up to the
first index at which the call does not return `AI_SUCCESS`. -/
structure aiMaterial where
  diffuse : List String
deriving DecidableEq, Repr

/-- The call `mtl->GetTexture(aiTextureType_DIFFUSE, index, &path)`: `some path` for
`AI_SUCCESS`, `none` otherwise. -/
def aiMaterial.GetTexture (mtl : aiMaterial) (index : Nat) : Option String :=
  mtl.diffuse[index]?

/-- The `aiScene` of Assimp: the mesh array and the material array. -/
structure aiScene where
  mMeshes : List aiMesh
  mMaterials : List aiMaterial
deriving DecidableEq, Repr

/-- The read `scene->mMaterials[i]`.  Assimp keeps `mMaterialIndex < mNumMaterials` in every
scene it returns (`aiScene.wellFormed`); for an index outside the array, where the source reads
past the array, the model reads a material without textures. -/
def aiScene.material (scene : aiScene) (i : Nat) : aiMaterial :=
  scene.mMaterials.getD i ⟨[]⟩

/-- What Assimp guarantees of a scene it returns, as far as the loader relies on it: material
indices are inside the material array and the per-vertex arrays hold `mNumVertices` entries. -/
def aiScene.wellFormed (scene : aiScene) : Bool :=
  scene.mMeshes.all fun mesh =>
    decide (mesh.mMaterialIndex < scene.mMaterials.length)
      && (mesh.mVertices.all fun a => a.length == mesh.mNumVertices)
      && (mesh.mTextureCoords.all fun a => a.length == mesh.mNumVertices)

/-! ## The OpenGL ES context -/

/-- The two buffer binding points the loader uses. -/
inductive BufferTarget where
  | GL_ARRAY_BUFFER
  | GL_ELEMENT_ARRAY_BUFFER
deriving DecidableEq, Repr

/-- A cell of a C array of `unsigned int` or `float`: `none` is an indeterminate value (never
written, or read from outside its source array). -/
abbrev Cell := Option Nat

/-- The OpenGL ES calls made by the loader, with the arguments that vary.  A buffer name that
is read from a `MeshInfo` field never assigned is `none`; the count of a draw is a `GLsizei`, a
signed 32-bit integer. -/
inductive GLCall where
  | glGenBuffers (buffer : GLuint)
  | glBindBuffer (target : BufferTarget) (buffer : Option GLuint)
  | glBufferData (target : BufferTarget) (size : Nat) (data : List Cell)
  | glGenTextures (n : Nat) (textures : List GLuint)
  | glBindTexture (texture : GLuint)
  | glTexParameteriMagLinear
  | glTexParameteriMinLinear
  | glTexImage2D (cols rows : Nat)
  | glClear
  | glUseProgram (program : GLuint)
  | glUniformMatrix4fv (location : Int) (value : List GLfloat)
  | glActiveTexture0
  | glUniform1i (location : Int) (v0 : Int)
  | glEnableVertexAttribArray (index : Int)
  | glVertexAttribPointer (index : Int) (size : Nat)
  | glDrawElements (count : Int)
deriving DecidableEq, Repr

/-- The context: `textures` and `buffers` are the names generated and not deleted (the live
GPU objects), `calls` is the log of the calls issued, oldest first. -/
structure GLState where
  textures : List GLuint
  buffers : List GLuint
  calls : List GLCall
deriving DecidableEq, Repr

/-- The 32-bit `int` that a product formed in 32 bits is read as: the product is kept modulo
`2 ^ 32`, and a result from `2 ^ 31` on is a negative `int`. -/
def int32 (n : Nat) : Int :=
  if n % 2 ^ 32 < 2 ^ 31 then ((n % 2 ^ 32 : Nat) : Int)
  else ((n % 2 ^ 32 : Nat) : Int) - 2 ^ 32

/-- A name not in use: one more than the largest name in `used`, hence never `0`. -/
def freshName (used : List GLuint) : GLuint := used.foldr max 0 + 1

/-- Appends one call to the log. -/
def GLState.issue (gl : GLState) (c : GLCall) : GLState :=
  { gl with calls := gl.calls ++ [c] }

/-- The call `glGenBuffers(1, &buffer)`: returns an unused buffer name and makes it live. -/
def glGenBuffers (gl : GLState) : GLuint × GLState :=
  let buffer := freshName gl.buffers
  (buffer, { gl with buffers := gl.buffers ++ [buffer],
                     calls := gl.calls ++ [GLCall.glGenBuffers buffer] })

/-- The `n` names returned by `glGenTextures(n, ..)`: each unused when it is chosen. -/
def genNames : Nat → List GLuint → List GLuint
  | 0, _ => []
  | n + 1, used => freshName used :: genNames n (used ++ [freshName used])

/-- The call `glGenTextures(n, textureGLNames)`: returns `n` unused texture names and makes
them live. -/
def glGenTextures (n : Nat) (gl : GLState) : List GLuint × GLState :=
  let names := genNames n gl.textures
  (names, { gl with textures := gl.textures ++ names,
                    calls := gl.calls ++ [GLCall.glGenTextures n names] })

/-! ## The texture name map (`std::map<std::string, GLuint>`) -/

/-- The order of `std::less<std::string>`: lexicographic on the characters. -/
def stringLess : List Char → List Char → Bool
  | [], [] => false
  | [], _ :: _ => true
  | _ :: _, [] => false
  | a :: as, b :: bs =>
    if a.toNat < b.toNat then true
    else if b.toNat < a.toNat then false
    else stringLess as bs

/-- A `std::map<std::string, GLuint>`, as the list of its entries in iteration order. -/
abbrev TextureNameMap := List (String × GLuint)

/-- The lookup `map.find(k)`: the value stored under `k`, if `k` is a key. -/
def mapFind (k : String) : TextureNameMap → Option GLuint
  | [] => none
  | (k', v) :: rest => if k = k' then some v else mapFind k rest

/-- Puts a new entry at its place in key order. -/
def insertSorted (k : String) (v : GLuint) : TextureNameMap → TextureNameMap
  | [] => [(k, v)]
  | (k', v') :: rest =>
    if stringLess k.data k'.data then (k, v) :: (k', v') :: rest
    else (k', v') :: insertSorted k v rest

/-- The call `map.insert(std::pair(k, v))`: no effect when `k` is already a key. -/
def mapInsert (k : String) (v : GLuint) (m : TextureNameMap) : TextureNameMap :=
  match mapFind k m with
  | some _ => m
  | none => insertSorted k v m

/-- The expression `map[k]`: the value under `k`; a missing key is first inserted with the
value-initialised `GLuint`, `0`. -/
def mapIndex (k : String) (m : TextureNameMap) : GLuint × TextureNameMap :=
  match mapFind k m with
  | some v => (v, m)
  | none => (0, insertSorted k 0 m)

/-! ## The model object -/

/-- Modelled from the spec: the `struct MeshInfo` of `assimpLoader.h`, a header that is not
among the sources.  The spec's Mesh Record has a face-index buffer handle, a vertex-position
buffer handle and a UV buffer handle, each of which may be absent, a face count and a resolved
texture handle with `0` as the "none" sentinel.  A buffer handle is `none` while the field has
never been assigned. -/
structure MeshInfo where
  textureIndex : GLuint
  numberOfFaces : Nat
  faceBuffer : Option GLuint
  vertexBuffer : Option GLuint
  textureCoordBuffer : Option GLuint
deriving DecidableEq, Repr

/-- The locations the constructor obtains from `LoadShaders`, `GetAttributeLocation` and
`GetUniformLocation` (`myShader.h`, not among the sources). -/
structure ShaderIds where
  shaderProgramID : GLuint
  vertexAttribute : Int
  vertexUVAttribute : Int
  mvpLocation : Int
  textureSamplerLocation : Int
deriving DecidableEq, Repr

/-- The data members of `class AssimpLoader` that the member functions read or write. -/
structure AssimpLoader where
  scene : Option aiScene
  isObjectLoaded : Bool
  modelMeshes : List MeshInfo
  textureNameMap : TextureNameMap
  shader : ShaderIds
deriving DecidableEq, Repr

/-- A decoded image (`cv::Mat`), as far as the loader passes it on: its size. -/
structure Mat where
  cols : Nat
  rows : Nat
deriving DecidableEq, Repr

/-- The services the loader calls outside the two source files.
* `ReadFile` is `importerPtr->ReadFile(modelFilename, aiProcessPreset_TargetRealtime_Quality)`;
  `none` is the null scene of a failed import.
* `imread` is `cv::imread(path)`; `none` is the empty matrix of a failed decode.
* `GetDirectoryName` is the function of `misc.h`, not among the sources.
* `ExtractAssetReturnFilename` is the method of `gHelperObject` (`myJNIHelper.h`, not among the
  sources): whether the asset could be made a file, and the path of that file. -/
structure Env where
  ReadFile : String → Option aiScene
  imread : String → Option Mat
  GetDirectoryName : String → String
  ExtractAssetReturnFilename : String → Bool × String

/-- The constructor `AssimpLoader::AssimpLoader()`: no scene, not loaded, no records. -/
def AssimpLoader.new (shader : ShaderIds) : AssimpLoader :=
  { scene := none, isObjectLoaded := false, modelMeshes := [], textureNameMap := [],
    shader := shader }

/-! ## `AssimpLoader::GenerateGLBuffers` -/

/-- The call `memcpy(&faceArray[faceIndex], face->mIndices, 3 * sizeof(unsigned int))`: three
cells are copied whatever `mNumIndices` is; a cell read from outside `mIndices` is
indeterminate. -/
def memcpy3 (faceArray : List Cell) (faceIndex : Nat) (mIndices : List Nat) : List Cell :=
  ((faceArray.set faceIndex mIndices[0]?).set (faceIndex + 1) mIndices[1]?).set
    (faceIndex + 2) mIndices[2]?

/-- The loop `for (t = 0; t < mesh->mNumFaces; ++t)` that fills `faceArray`, from the faces
still to copy and the current `faceIndex`.  `faceIndex` is an `unsigned int`: `faceIndex += 3`
is formed modulo `2 ^ 32`.  A write outside `faceArray` changes no cell of it. -/
def copyFaces : List aiFace → Nat → List Cell → List Cell
  | [], _, faceArray => faceArray
  | face :: more, faceIndex, faceArray =>
    copyFaces more ((faceIndex + 3) % 2 ^ 32) (memcpy3 faceArray faceIndex face.mIndices)

/-- The array `faceArray` once filled: `new unsigned int[mesh->mNumFaces * 3]`, written by
`copyFaces`.  The number of cells is a product of `unsigned int`, formed modulo `2 ^ 32`: from
1431655766 faces on the array is shorter than three cells per face. -/
def faceArray (mesh : aiMesh) : List Cell :=
  copyFaces mesh.mFaces 0 (List.replicate ((mesh.mNumFaces * 3) % 2 ^ 32) none)

/-- Lines 72-97: the face count is stored, and when it is not zero an element buffer is
generated, filled with `faceArray` and stored in `faceBuffer`.  With no face, `faceBuffer` is
not written.  The byte size `sizeof(unsigned int) * mesh->mNumFaces * 3` is a product of
`size_t`, whose width depends on the ABI; it is written without a width, and the theorem on
this upload takes it below `2 ^ 31`, where no width changes it. -/
def uploadFaces (mesh : aiMesh) (newMeshInfo : MeshInfo) (gl : GLState) : MeshInfo × GLState :=
  if mesh.mNumFaces ≠ 0 then
    let g := glGenBuffers gl
    ({ newMeshInfo with numberOfFaces := mesh.mNumFaces, faceBuffer := some g.1 },
      (g.2.issue (GLCall.glBindBuffer BufferTarget.GL_ELEMENT_ARRAY_BUFFER (some g.1))).issue
        (GLCall.glBufferData BufferTarget.GL_ELEMENT_ARRAY_BUFFER (4 * mesh.mNumFaces * 3)
          (faceArray mesh)))
  else ({ newMeshInfo with numberOfFaces := mesh.mNumFaces }, gl)

/-- The memory `mesh->mVertices` as uploaded: three floats for each of `mNumVertices`
vertices. -/
def positionData (mesh : aiMesh) : List Cell :=
  ((mesh.mVertices.getD []).take mesh.mNumVertices).flatMap
    fun v => [some v.x, some v.y, some v.z]

/-- Lines 99-109: when the mesh has positions a vertex buffer is generated, filled and stored
in `vertexBuffer`; otherwise `vertexBuffer` is not written. -/
def uploadPositions (mesh : aiMesh) (newMeshInfo : MeshInfo) (gl : GLState) :
    MeshInfo × GLState :=
  if mesh.HasPositions then
    let g := glGenBuffers gl
    ({ newMeshInfo with vertexBuffer := some g.1 },
      (g.2.issue (GLCall.glBindBuffer BufferTarget.GL_ARRAY_BUFFER (some g.1))).issue
        (GLCall.glBufferData BufferTarget.GL_ARRAY_BUFFER (4 * 3 * mesh.mNumVertices)
          (positionData mesh)))
  else (newMeshInfo, gl)

/-- The array `textureCoords`: for each of the `mNumVertices` vertices the `x` and the `y` of
`mTextureCoords[0][k]`. -/
def textureCoords (mesh : aiMesh) : List Cell :=
  ((mesh.mTextureCoords.getD []).take mesh.mNumVertices).flatMap fun v => [some v.x, some v.y]

/-- Lines 111-128: when the mesh has a first UV channel a buffer is generated, filled with
`textureCoords` and stored in `textureCoordBuffer`; otherwise `textureCoordBuffer` is not
written. -/
def uploadTextureCoords (mesh : aiMesh) (newMeshInfo : MeshInfo) (gl : GLState) :
    MeshInfo × GLState :=
  if mesh.HasTextureCoords0 then
    let g := glGenBuffers gl
    ({ newMeshInfo with textureCoordBuffer := some g.1 },
      (g.2.issue (GLCall.glBindBuffer BufferTarget.GL_ARRAY_BUFFER (some g.1))).issue
        (GLCall.glBufferData BufferTarget.GL_ARRAY_BUFFER (4 * 2 * mesh.mNumVertices)
          (textureCoords mesh)))
  else (newMeshInfo, gl)

/-- Lines 134-143: the texture name of the mesh, and the texture name map after the lookup.
With a first diffuse texture the name is `textureNameMap[texturePath.data]`, otherwise `0`. -/
def resolveTexture (scene : aiScene) (mesh : aiMesh) (textureNameMap : TextureNameMap) :
    GLuint × TextureNameMap :=
  match (scene.material mesh.mMaterialIndex).GetTexture 0 with
  | some texturePath => mapIndex texturePath textureNameMap
  | none => (0, textureNameMap)

/-- The state of the loop over the meshes: the local `newMeshInfo`, declared before the loop
and never reset, the model object and the context. -/
structure MeshLoop where
  newMeshInfo : MeshInfo
  loader : AssimpLoader
  gl : GLState
deriving DecidableEq, Repr

/-- The body of `for (n = 0; n < scene->mNumMeshes; ++n)`, lines 70-145, for the mesh
`scene->mMeshes[n]` (the Mesh Buffer Builder step of the spec): buffers for the faces, the
positions and the texture coordinates, the two unbinds, the texture name, and the `push_back`
of a copy of `newMeshInfo`. -/
def buildMesh (scene : aiScene) (s : MeshLoop) (mesh : aiMesh) : MeshLoop :=
  let f := uploadFaces mesh s.newMeshInfo s.gl
  let p := uploadPositions mesh f.1 f.2
  let u := uploadTextureCoords mesh p.1 p.2
  let gl := (u.2.issue (GLCall.glBindBuffer BufferTarget.GL_ARRAY_BUFFER (some 0))).issue
    (GLCall.glBindBuffer BufferTarget.GL_ELEMENT_ARRAY_BUFFER (some 0))
  let t := resolveTexture scene mesh s.loader.textureNameMap
  let newMeshInfo := { u.1 with textureIndex := t.1 }
  { newMeshInfo := newMeshInfo,
    loader := { s.loader with textureNameMap := t.2,
                              modelMeshes := s.loader.modelMeshes ++ [newMeshInfo] },
    gl := gl }

/-- The local `struct MeshInfo newMeshInfo;` before its first use: no buffer field has been
assigned.  The two other fields are assigned for every mesh before the record is copied. -/
def MeshInfo.uninitialized : MeshInfo :=
  { textureIndex := 0, numberOfFaces := 0, faceBuffer := none, vertexBuffer := none,
    textureCoordBuffer := none }

/-- The method `AssimpLoader::GenerateGLBuffers()`, for the scene `this->scene` points to. -/
def GenerateGLBuffers (scene : aiScene) (loader : AssimpLoader) (gl : GLState) :
    AssimpLoader × GLState :=
  let s := scene.mMeshes.foldl (buildMesh scene)
    { newMeshInfo := MeshInfo.uninitialized, loader := loader, gl := gl }
  (s.loader, s.gl)

/-! ## `AssimpLoader::LoadTexturesToGL` -/

/-- The `while (isTexturePresent == AI_SUCCESS)` loop for one material, over the file names its
successive `GetTexture` calls return: each is inserted with the name `0`. -/
def registerTextures : List String → TextureNameMap → TextureNameMap
  | [], m => m
  | textureFilename :: more, m => registerTextures more (mapInsert textureFilename 0 m)

/-- The loop `for (m = 0; m < scene->mNumMaterials; ++m)`, lines 157-196. -/
def registerMaterials : List aiMaterial → TextureNameMap → TextureNameMap
  | [], m => m
  | mtl :: more, m => registerMaterials more (registerTextures mtl.diffuse m)

/-- The loop over the map, lines 210-250, from the entries still to visit (`todo`), their
first index `i`, and the entries visited (`done`).  The entry gets `textureGLNames[i]`, then its
image is read: decoded, it is uploaded; otherwise the loop is left with `false`. -/
def uploadTextures (env : Env) (modelDirectoryName : String) (textureGLNames : List GLuint) :
    Nat → TextureNameMap → TextureNameMap → GLState → Bool × TextureNameMap × GLState
  | _, [], done, gl => (true, done, gl)
  | i, (textureFilename, _) :: todo, done, gl =>
    match env.imread (modelDirectoryName ++ "/" ++ textureFilename) with
    | some textureImage =>
      uploadTextures env modelDirectoryName textureGLNames (i + 1) todo
        (done ++ [(textureFilename, textureGLNames.getD i 0)])
        ((((gl.issue (GLCall.glBindTexture (textureGLNames.getD i 0))).issue
          GLCall.glTexParameteriMagLinear).issue GLCall.glTexParameteriMinLinear).issue
          (GLCall.glTexImage2D textureImage.cols textureImage.rows))
    | none => (false, done ++ (textureFilename, textureGLNames.getD i 0) :: todo, gl)

/-- The method `AssimpLoader::LoadTexturesToGL(modelFilename)`, for the scene `this->scene`
points to.  The array `textureGLNames` is freed on both exits; no texture is deleted. -/
def LoadTexturesToGL (env : Env) (scene : aiScene) (modelFilename : String)
    (loader : AssimpLoader) (gl : GLState) : Bool × AssimpLoader × GLState :=
  let names := registerMaterials scene.mMaterials []
  let g := glGenTextures names.length gl
  let r := uploadTextures env (env.GetDirectoryName modelFilename) g.1 0 names [] g.2
  (r.1, { loader with textureNameMap := r.2.1 }, r.2.2)

/-! ## `Load3DModel`, `Delete3DModel`, `Render3DModel` -/

/-- The method `AssimpLoader::Load3DModel(modelFilename)`. -/
def Load3DModel (env : Env) (modelFilename : String) (loader : AssimpLoader) (gl : GLState) :
    Bool × AssimpLoader × GLState :=
  match env.ReadFile modelFilename with
  | none => (false, { loader with scene := none }, gl)
  | some scene =>
    let t := LoadTexturesToGL env scene modelFilename { loader with scene := some scene } gl
    if t.1 then
      let b := GenerateGLBuffers scene t.2.1 t.2.2
      (true, { b.1 with isObjectLoaded := true }, b.2)
    else (false, t.2.1, t.2.2)

/-- The method `AssimpLoader::Delete3DModel()`.  It makes no OpenGL call. -/
def Delete3DModel (loader : AssimpLoader) : AssimpLoader :=
  if loader.isObjectLoaded then { loader with modelMeshes := [], isObjectLoaded := false }
  else loader

/-- The calls of one turn of the loop `for (n = 0; n < numberOfLoadedMeshes; ++n)` of
`Render3DModel`, lines 326-358, for the record `modelMeshes[n]`.  The count of the draw,
`modelMeshes[n].numberOfFaces * 3` of line 354, is a product formed in 32 bits and passed as a
`GLsizei`. -/
def renderMeshCalls (shader : ShaderIds) (mesh : MeshInfo) : List GLCall :=
  (if mesh.textureIndex ≠ 0 then [GLCall.glBindTexture mesh.textureIndex] else []) ++
  [ GLCall.glBindBuffer BufferTarget.GL_ELEMENT_ARRAY_BUFFER mesh.faceBuffer,
    GLCall.glBindBuffer BufferTarget.GL_ARRAY_BUFFER mesh.vertexBuffer,
    GLCall.glEnableVertexAttribArray shader.vertexAttribute,
    GLCall.glVertexAttribPointer shader.vertexAttribute 3,
    GLCall.glBindBuffer BufferTarget.GL_ARRAY_BUFFER mesh.textureCoordBuffer,
    GLCall.glEnableVertexAttribArray shader.vertexUVAttribute,
    GLCall.glVertexAttribPointer shader.vertexUVAttribute 2,
    GLCall.glDrawElements (int32 (mesh.numberOfFaces * 3)),
    GLCall.glBindBuffer BufferTarget.GL_ARRAY_BUFFER (some 0),
    GLCall.glBindBuffer BufferTarget.GL_ELEMENT_ARRAY_BUFFER (some 0) ]

/-- One turn of the render loop: its calls are issued in order. -/
def renderMesh (shader : ShaderIds) (gl : GLState) (mesh : MeshInfo) : GLState :=
  (renderMeshCalls shader mesh).foldl GLState.issue gl

/-- The method `AssimpLoader::Render3DModel(mvpMat)`.  It returns the model object along with
the context; `CheckGLError` only reads the error flag. -/
def Render3DModel (mvpMat : List GLfloat) (loader : AssimpLoader) (gl : GLState) :
    AssimpLoader × GLState :=
  if !loader.isObjectLoaded then (loader, gl)
  else
    let gl := ((((gl.issue GLCall.glClear).issue
      (GLCall.glUseProgram loader.shader.shaderProgramID)).issue
      (GLCall.glUniformMatrix4fv loader.shader.mvpLocation mvpMat)).issue
      GLCall.glActiveTexture0).issue
      (GLCall.glUniform1i loader.shader.textureSamplerLocation 0)
    (loader, loader.modelMeshes.foldl (renderMesh loader.shader) gl)

/-! ## `ModelAssimp::ResetModel` -/

/-- The data members of `class ModelAssimp` that `ResetModel` reads or writes; `modelObject`
is the object created by `PerformGLInits`, which also sets `initsDone`. -/
structure ModelAssimp where
  initsDone : Bool
  modelObject : AssimpLoader
deriving DecidableEq, Repr

/-- The method `ModelAssimp::ResetModel(objFileName, mtlFileName, texFileName)`: the old model
is deleted, the assets are extracted, and the new model is loaded from the extracted file.  The
camera reset, and the extraction of the material file and of the texture files named in
`texFileName`, act outside the model object and the context. -/
def ResetModel (env : Env) (objFileName : String) (app : ModelAssimp) (gl : GLState) :
    ModelAssimp × GLState :=
  if app.initsDone then
    let modelObject := Delete3DModel app.modelObject
    let e := env.ExtractAssetReturnFilename objFileName
    if e.1 then
      let l := Load3DModel env e.2 modelObject gl
      ({ app with modelObject := l.2.1 }, l.2.2)
    else ({ app with modelObject := modelObject }, gl)
  else (app, gl)

/-! ## Observations used in the statements -/

/-- The face count and the texture name of a record. -/
def MeshInfo.summary (r : MeshInfo) : Nat × GLuint := (r.numberOfFaces, r.textureIndex)

/-- The index count of a draw call; `none` for any other call. -/
def GLCall.drawCount : GLCall → Option Int
  | GLCall.glDrawElements count => some count
  | _ => none

/-- Whether a call binds a texture or draws. -/
def GLCall.isTextureOrDraw : GLCall → Bool
  | GLCall.glBindTexture _ => true
  | GLCall.glDrawElements _ => true
  | _ => false

/-! ## Sample scenes -/

/-- A triangle over three consecutive vertices. -/
def Sample.triangle (n : Nat) : aiFace := ⟨[3 * n, 3 * n + 1, 3 * n + 2]⟩

/-- A vertex or UV entry. -/
def Sample.origin : aiVector3D := ⟨0, 0, 0⟩

/-- Mesh A of the spec's scenario: 10 faces, positions, UVs, the material with "wood.png". -/
def Sample.meshA : aiMesh :=
  { mFaces := (List.range 10).map Sample.triangle, mNumVertices := 30,
    mVertices := some (List.replicate 30 Sample.origin),
    mTextureCoords := some (List.replicate 30 Sample.origin), mMaterialIndex := 0 }

/-- Mesh B of the spec's scenario: 5 faces, positions, no UVs, a material without texture. -/
def Sample.meshB : aiMesh :=
  { mFaces := (List.range 5).map Sample.triangle, mNumVertices := 15,
    mVertices := some (List.replicate 15 Sample.origin),
    mTextureCoords := none, mMaterialIndex := 1 }

/-- The two-mesh scene of the spec's scenario. -/
def Sample.woodScene : aiScene :=
  { mMeshes := [Sample.meshA, Sample.meshB], mMaterials := [⟨["wood.png"]⟩, ⟨[]⟩] }

/-- A mesh with one face and positions, and no UVs. -/
def Sample.oneFace : aiMesh :=
  { mFaces := [Sample.triangle 0], mNumVertices := 3,
    mVertices := some (List.replicate 3 Sample.origin),
    mTextureCoords := none, mMaterialIndex := 0 }

/-- A mesh with positions and no face. -/
def Sample.noFace : aiMesh :=
  { mFaces := [], mNumVertices := 3, mVertices := some (List.replicate 3 Sample.origin),
    mTextureCoords := none, mMaterialIndex := 0 }

/-- A scene whose second mesh has no face; its only material has no texture. -/
def Sample.noFaceScene : aiScene :=
  { mMeshes := [Sample.oneFace, Sample.noFace], mMaterials := [⟨[]⟩] }

/-- A scene of two meshes that share the material with "wood.png". -/
def Sample.sharedScene : aiScene :=
  { mMeshes := [Sample.meshA, { Sample.meshB with mMaterialIndex := 0 }],
    mMaterials := [⟨["wood.png"]⟩] }

/-- A device on which the files "/sdcard/m/wood.obj", "/sdcard/m/flat.obj" and
"/sdcard/m/shared.obj" are read as the three sample scenes, no other file can be read as a
scene, and "/sdcard/m/wood.png" is the only image that decodes. -/
def Sample.device : Env :=
  { ReadFile := fun f =>
      if f = "/sdcard/m/wood.obj" then some Sample.woodScene
      else if f = "/sdcard/m/flat.obj" then some Sample.noFaceScene
      else if f = "/sdcard/m/shared.obj" then some Sample.sharedScene
      else none,
    imread := fun p => if p = "/sdcard/m/wood.png" then some ⟨4, 4⟩ else none,
    GetDirectoryName := fun _ => "/sdcard/m",
    ExtractAssetReturnFilename := fun f => (true, "/sdcard/m/" ++ f) }

/-- The same device without the image file: no image decodes. -/
def Sample.deviceNoImage : Env :=
  { Sample.device with imread := fun _ => none }

/-- Shader locations. -/
def Sample.shader : ShaderIds :=
  { shaderProgramID := 1, vertexAttribute := 0, vertexUVAttribute := 1, mvpLocation := 0,
    textureSamplerLocation := 1 }

/-- A context with no object and an empty log. -/
def Sample.context : GLState := { textures := [], buffers := [], calls := [] }

/-- The model object and the context after the two-mesh sample scene has been loaded into a
new model object. -/
def Sample.afterWood : Bool × AssimpLoader × GLState :=
  Load3DModel Sample.device "/sdcard/m/wood.obj" (AssimpLoader.new Sample.shader) Sample.context

/-- An application whose model object holds the two-mesh sample scene. -/
def Sample.app : ModelAssimp :=
  { initsDone := true, modelObject := Sample.afterWood.2.1 }

/-- A loop state whose texture name map holds "wood.png" under the name 7. -/
def Sample.loop : MeshLoop :=
  { newMeshInfo := MeshInfo.uninitialized,
    loader := { AssimpLoader.new Sample.shader with textureNameMap := [("wood.png", 7)] },
    gl := Sample.context }

/-- A scene whose second material names a texture that is not "wood.png". -/
def Sample.otherScene : aiScene :=
  { mMeshes := [Sample.meshA, Sample.meshB], mMaterials := [⟨["wood.png"]⟩, ⟨["iron.png"]⟩] }

/-- The byte size and the data of an upload to the element buffer; `none` for any other
call. -/
def GLCall.elementData : GLCall → Option (Nat × List Cell)
  | GLCall.glBufferData BufferTarget.GL_ELEMENT_ARRAY_BUFFER size data => some (size, data)
  | _ => none

/-- The buffer names stored in a record: those of its fields that have been assigned. -/
def MeshInfo.buffers (r : MeshInfo) : List GLuint :=
  r.faceBuffer.toList ++ r.vertexBuffer.toList ++ r.textureCoordBuffer.toList

/-- The method `Delete3DModel()` run in a context.  Its body, lines 290-301, calls no OpenGL
function (the one call it had, `glDeleteTextures`, is commented out), so the context is
returned as it was. -/
def Delete3DModel.inContext (loader : AssimpLoader) (gl : GLState) : AssimpLoader × GLState :=
  (Delete3DModel loader, gl)

/-! ## `split` (`modelAssimp.cpp`) -/

/-- The loop `for (x = 0; x < seperator.size(); ++x) if (c == seperator[x]) { ...; break; }`
found in both inner loops of `split`: whether some char of `seperator` equals `c`. -/
def matchesSeperator (c : Char) : List Char → Bool
  | [] => false
  | x :: more => if c = x then true else matchesSeperator c more

/-- The first inner loop of `split`, lines 75-84, from the index `i`: `i` moves past the chars
that match the separator, and the loop is left at the end of `s` or at the first char that does
not match, with the index it has reached.  A `std::string` is the list of its chars; `i` never
exceeds `s.size()`, so `i != s.size()` is `i < s.size()`.  The loop is run for at most `turns`
evaluations of its guard: `none` says that it has not been left within them, and only a turn
that leaves the loop gives an index. -/
def skipSeperatorsLoop (s seperator : List Char) : Nat → Nat → Option Nat
  | 0, _ => none
  | turns + 1, i =>
    if h : i < s.length then
      if matchesSeperator s[i] seperator then skipSeperatorsLoop s seperator turns (i + 1)
      else some i
    else some i

/-- The first inner loop of `split`, given one turn per char of `s` and one more. -/
def skipSeperators (s seperator : List Char) (i : Nat) : Option Nat :=
  skipSeperatorsLoop s seperator (s.length + 1) i

/-- The second inner loop of `split`, lines 87-97, from the index `j`: `j` moves past the chars
that do not match the separator, and the loop is left at the end of `s` or at the first char
that matches, with the index it has reached; `none` says that the loop has not been left within
`turns` evaluations of its guard. -/
def findSeperatorLoop (s seperator : List Char) : Nat → Nat → Option Nat
  | 0, _ => none
  | turns + 1, j =>
    if h : j < s.length then
      if matchesSeperator s[j] seperator then some j
      else findSeperatorLoop s seperator turns (j + 1)
    else some j

/-- The second inner loop of `split`, given one turn per char of `s` and one more. -/
def findSeperator (s seperator : List Char) (j : Nat) : Option Nat :=
  findSeperatorLoop s seperator (s.length + 1) j

/-- The call `s.substr(pos, n)`, for `pos` not beyond the end of `s`. -/
def substr (s : List Char) (pos n : Nat) : List Char := (s.drop pos).take n

/-- The outer loop `while (i != s.size())` of `split`, lines 73-102, from the index `i` and the
tokens pushed so far: separators are skipped, the next separator is looked for, and a token that
is not empty is pushed, after which `i` is at its end.  The loop is left only when its guard
fails, and then gives the index `i` and the tokens; `none` says that this loop, or an inner loop
of one of its turns, has not been left within the turns it was given. -/
def splitLoop (s seperator : List Char) :
    Nat → Nat → List (List Char) → Option (Nat × List (List Char))
  | 0, _, _ => none
  | turns + 1, i, result =>
    if i < s.length then
      match skipSeperators s seperator i with
      | none => none
      | some i1 =>
        match findSeperator s seperator i1 with
        | none => none
        | some j =>
          if i1 ≠ j then
            splitLoop s seperator turns j (result ++ [substr s i1 (j - i1)])
          else splitLoop s seperator turns i1 result
    else some (i, result)

/-- The function `split(s, seperator)`: the tokens with which the outer loop is left, when it
is left within one turn per char of `s` and one more; `none` otherwise. -/
def split (s seperator : List Char) : Option (List (List Char)) :=
  (splitLoop s seperator (s.length + 1) 0 []).map Prod.snd

/-- From the claim's words: the maximal non-empty runs of consecutive characters of `s` that
are not characters of `sep`, from left to right: `s` is cut at every character of `sep`, and
the pieces that are not empty are kept. -/
def maximalRuns (s sep : List Char) : List (List Char) :=
  (s.splitOnP fun c => decide (c ∈ sep)).filter fun run => decide (run ≠ [])

/-! ## Lemmas on the texture name map -/

theorem mapFind_isSome_iff (q : String) (m : TextureNameMap) :
    (mapFind q m).isSome = true ↔ q ∈ m.map Prod.fst := by
  induction m with
  | nil => simp [mapFind]
  | cons e rest ih =>
    obtain ⟨k, v⟩ := e
    by_cases h : q = k
    · simp [mapFind, h]
    · simp [mapFind, h, ih]

theorem mapFind_eq_none_iff (q : String) (m : TextureNameMap) :
    mapFind q m = none ↔ q ∉ m.map Prod.fst := by
  rw [← mapFind_isSome_iff]
  cases mapFind q m <;> simp

theorem mem_keys_insertSorted (q k : String) (v : GLuint) (m : TextureNameMap) :
    q ∈ (insertSorted k v m).map Prod.fst ↔ q = k ∨ q ∈ m.map Prod.fst := by
  induction m with
  | nil => simp [insertSorted]
  | cons e rest ih =>
    obtain ⟨k', v'⟩ := e
    by_cases h : stringLess k.data k'.data = true
    · simp [insertSorted, h]
    · have h' : stringLess k.data k'.data = false := by simpa using h
      simp only [insertSorted, h', List.map_cons, List.mem_cons, ih]
      simp only [Bool.false_eq_true, if_false, List.map_cons, List.mem_cons, ih]
      tauto

theorem mapFind_insertSorted (q k : String) (v : GLuint) (m : TextureNameMap)
    (hk : mapFind k m = none) :
    mapFind q (insertSorted k v m) = if q = k then some v else mapFind q m := by
  induction m with
  | nil => simp [insertSorted, mapFind]
  | cons e rest ih =>
    obtain ⟨k', v'⟩ := e
    have hne : k ≠ k' := by
      intro h
      simp [mapFind, h] at hk
    have hrest : mapFind k rest = none := by
      simpa [mapFind, hne] using hk
    by_cases h : stringLess k.data k'.data = true
    · simp [insertSorted, h, mapFind]
    · have h' : stringLess k.data k'.data = false := by simpa using h
      simp only [insertSorted, h', Bool.false_eq_true, if_false, mapFind, ih hrest]
      by_cases hq : q = k'
      · have : q ≠ k := fun h' => hne (h' ▸ hq)
        simp [hq, Ne.symm hne]
      · simp [hq]

theorem mem_keys_mapInsert (q k : String) (v : GLuint) (m : TextureNameMap) :
    q ∈ (mapInsert k v m).map Prod.fst ↔ q = k ∨ q ∈ m.map Prod.fst := by
  unfold mapInsert
  cases hk : mapFind k m with
  | none => simpa using mem_keys_insertSorted q k v m
  | some w =>
    have : k ∈ m.map Prod.fst := (mapFind_isSome_iff k m).1 (by simp [hk])
    constructor
    · intro h; exact Or.inr h
    · rintro (h | h)
      · exact h ▸ this
      · exact h

/-- The value `map[k]` reads: the stored name, or `0` for a missing key. -/
theorem mapIndex_fst (k : String) (m : TextureNameMap) :
    (mapIndex k m).1 = (mapFind k m).getD 0 := by
  unfold mapIndex
  cases mapFind k m <;> rfl

/-- Reading `map[k]` changes no later read: a key it adds is added with the name `0`. -/
theorem mapFind_getD_mapIndex (q k : String) (m : TextureNameMap) :
    (mapFind q (mapIndex k m).2).getD 0 = (mapFind q m).getD 0 := by
  unfold mapIndex
  cases hk : mapFind k m with
  | some w => rfl
  | none =>
    simp only [mapFind_insertSorted q k 0 m hk]
    by_cases hq : q = k
    · simp [hq, hk]
    · simp [hq]

/-! ## Lemmas on `LoadTexturesToGL` -/

theorem mem_keys_registerTextures (q : String) (names : List String) (m : TextureNameMap) :
    q ∈ (registerTextures names m).map Prod.fst ↔ q ∈ names ∨ q ∈ m.map Prod.fst := by
  induction names generalizing m with
  | nil => simp [registerTextures]
  | cons f more ih =>
    simp only [registerTextures, ih, mem_keys_mapInsert, List.mem_cons]
    tauto

theorem mem_keys_registerMaterials (q : String) (mtls : List aiMaterial) (m : TextureNameMap) :
    q ∈ (registerMaterials mtls m).map Prod.fst ↔
      (∃ mtl ∈ mtls, q ∈ mtl.diffuse) ∨ q ∈ m.map Prod.fst := by
  induction mtls generalizing m with
  | nil => simp [registerMaterials]
  | cons mtl more ih =>
    rw [registerMaterials, ih, mem_keys_registerTextures]
    constructor
    · rintro (⟨w, hw, hq⟩ | hq | hq)
      · exact Or.inl ⟨w, List.mem_cons_of_mem _ hw, hq⟩
      · exact Or.inl ⟨mtl, List.mem_cons_self _ _, hq⟩
      · exact Or.inr hq
    · rintro (⟨w, hw, hq⟩ | hq)
      · rcases List.mem_cons.1 hw with rfl | hw
        · exact Or.inr (Or.inl hq)
        · exact Or.inl ⟨w, hw, hq⟩
      · exact Or.inr (Or.inr hq)

/-- The upload loop renames entries and never adds or drops a key, on either exit. -/
theorem keys_uploadTextures (env : Env) (dir : String) (names : List GLuint) (i : Nat)
    (todo done : TextureNameMap) (gl : GLState) :
    (uploadTextures env dir names i todo done gl).2.1.map Prod.fst
      = (done ++ todo).map Prod.fst := by
  induction todo generalizing i done gl with
  | nil => simp [uploadTextures]
  | cons e rest ih =>
    obtain ⟨f, old⟩ := e
    unfold uploadTextures
    cases env.imread (dir ++ "/" ++ f) with
    | none => simp
    | some img => simp [ih]

/-- The upload loop generates and deletes no object. -/
theorem objects_uploadTextures (env : Env) (dir : String) (names : List GLuint) (i : Nat)
    (todo done : TextureNameMap) (gl : GLState) :
    (uploadTextures env dir names i todo done gl).2.2.textures = gl.textures ∧
    (uploadTextures env dir names i todo done gl).2.2.buffers = gl.buffers := by
  induction todo generalizing i done gl with
  | nil => simp [uploadTextures]
  | cons e rest ih =>
    obtain ⟨f, old⟩ := e
    unfold uploadTextures
    cases env.imread (dir ++ "/" ++ f) with
    | none => simp
    | some img => simp [ih, GLState.issue]

/-- The upload loop succeeds when every image still to visit decodes. -/
theorem uploadTextures_ok (env : Env) (dir : String) (names : List GLuint) (i : Nat)
    (todo done : TextureNameMap) (gl : GLState)
    (h : ∀ f ∈ todo.map Prod.fst, (env.imread (dir ++ "/" ++ f)).isSome = true) :
    (uploadTextures env dir names i todo done gl).1 = true := by
  induction todo generalizing i done gl with
  | nil => simp [uploadTextures]
  | cons e rest ih =>
    obtain ⟨f, old⟩ := e
    unfold uploadTextures
    have hf := h f (by simp)
    cases hr : env.imread (dir ++ "/" ++ f) with
    | none => simp [hr] at hf
    | some img =>
      simp only
      exact ih _ _ _ (fun g hg => h g (by simp at hg ⊢; exact Or.inr hg))

theorem LoadTexturesToGL_keys (env : Env) (scene : aiScene) (file : String)
    (loader : AssimpLoader) (gl : GLState) (q : String) :
    q ∈ (LoadTexturesToGL env scene file loader gl).2.1.textureNameMap.map Prod.fst ↔
      ∃ mtl ∈ scene.mMaterials, q ∈ mtl.diffuse := by
  have h := mem_keys_registerMaterials q scene.mMaterials []
  simp only [List.map_nil, List.not_mem_nil, or_false] at h
  simp only [LoadTexturesToGL, keys_uploadTextures, List.nil_append]
  exact h

theorem LoadTexturesToGL_fields (env : Env) (scene : aiScene) (file : String)
    (loader : AssimpLoader) (gl : GLState) :
    (LoadTexturesToGL env scene file loader gl).2.1.modelMeshes = loader.modelMeshes ∧
    (LoadTexturesToGL env scene file loader gl).2.1.isObjectLoaded = loader.isObjectLoaded ∧
    (LoadTexturesToGL env scene file loader gl).2.1.shader = loader.shader ∧
    (LoadTexturesToGL env scene file loader gl).2.1.scene = loader.scene := by
  simp [LoadTexturesToGL]

theorem LoadTexturesToGL_objects (env : Env) (scene : aiScene) (file : String)
    (loader : AssimpLoader) (gl : GLState) :
    (LoadTexturesToGL env scene file loader gl).2.2.textures
      = gl.textures ++ genNames (registerMaterials scene.mMaterials []).length gl.textures ∧
    (LoadTexturesToGL env scene file loader gl).2.2.buffers = gl.buffers := by
  simp [LoadTexturesToGL, objects_uploadTextures, glGenTextures]

theorem LoadTexturesToGL_ok (env : Env) (scene : aiScene) (file : String)
    (loader : AssimpLoader) (gl : GLState)
    (h : ∀ mtl ∈ scene.mMaterials, ∀ f ∈ mtl.diffuse,
      (env.imread (env.GetDirectoryName file ++ "/" ++ f)).isSome = true) :
    (LoadTexturesToGL env scene file loader gl).1 = true := by
  unfold LoadTexturesToGL
  apply uploadTextures_ok
  intro f hf
  rcases (mem_keys_registerMaterials f scene.mMaterials []).1 hf with ⟨mtl, hm, hd⟩ | h0
  · exact h mtl hm f hd
  · simp at h0

/-! ## Lemmas on `GenerateGLBuffers` -/

theorem uploadFaces_numberOfFaces (mesh : aiMesh) (info : MeshInfo) (gl : GLState) :
    (uploadFaces mesh info gl).1.numberOfFaces = mesh.mNumFaces := by
  unfold uploadFaces
  split <;> rfl

theorem uploadPositions_numberOfFaces (mesh : aiMesh) (info : MeshInfo) (gl : GLState) :
    (uploadPositions mesh info gl).1.numberOfFaces = info.numberOfFaces := by
  unfold uploadPositions
  split <;> rfl

theorem uploadTextureCoords_numberOfFaces (mesh : aiMesh) (info : MeshInfo) (gl : GLState) :
    (uploadTextureCoords mesh info gl).1.numberOfFaces = info.numberOfFaces := by
  unfold uploadTextureCoords
  split <;> rfl

theorem buildMesh_modelMeshes (scene : aiScene) (s : MeshLoop) (mesh : aiMesh) :
    (buildMesh scene s mesh).loader.modelMeshes
      = s.loader.modelMeshes ++ [(buildMesh scene s mesh).newMeshInfo] := rfl

theorem buildMesh_numberOfFaces (scene : aiScene) (s : MeshLoop) (mesh : aiMesh) :
    (buildMesh scene s mesh).newMeshInfo.numberOfFaces = mesh.mNumFaces := by
  simp [buildMesh, uploadTextureCoords_numberOfFaces, uploadPositions_numberOfFaces,
    uploadFaces_numberOfFaces]

theorem buildMesh_textureIndex (scene : aiScene) (s : MeshLoop) (mesh : aiMesh) :
    (buildMesh scene s mesh).newMeshInfo.textureIndex
      = (resolveTexture scene mesh s.loader.textureNameMap).1 := rfl

theorem buildMesh_textureNameMap (scene : aiScene) (s : MeshLoop) (mesh : aiMesh) :
    (buildMesh scene s mesh).loader.textureNameMap
      = (resolveTexture scene mesh s.loader.textureNameMap).2 := rfl

theorem buildMesh_fields (scene : aiScene) (s : MeshLoop) (mesh : aiMesh) :
    (buildMesh scene s mesh).loader.isObjectLoaded = s.loader.isObjectLoaded ∧
    (buildMesh scene s mesh).loader.shader = s.loader.shader ∧
    (buildMesh scene s mesh).loader.scene = s.loader.scene := ⟨rfl, rfl, rfl⟩

/-- The name a mesh resolves to: the name stored under its first diffuse file name, `0` when
the material has no diffuse texture or the file name is not a key. -/
theorem resolveTexture_fst (scene : aiScene) (mesh : aiMesh) (m : TextureNameMap) :
    (resolveTexture scene mesh m).1
      = match (scene.material mesh.mMaterialIndex).GetTexture 0 with
        | some f => (mapFind f m).getD 0
        | none => 0 := by
  unfold resolveTexture
  cases (scene.material mesh.mMaterialIndex).GetTexture 0 with
  | none => rfl
  | some f => simp [mapIndex_fst]

/-- Resolving one mesh does not change what any mesh resolves to. -/
theorem resolveTexture_stable (scene : aiScene) (mesh mesh' : aiMesh) (m : TextureNameMap) :
    (resolveTexture scene mesh' (resolveTexture scene mesh m).2).1
      = (resolveTexture scene mesh' m).1 := by
  rw [resolveTexture_fst, resolveTexture_fst]
  cases (scene.material mesh'.mMaterialIndex).GetTexture 0 with
  | none => rfl
  | some f =>
    simp only
    unfold resolveTexture
    cases (scene.material mesh.mMaterialIndex).GetTexture 0 with
    | none => rfl
    | some g => exact mapFind_getD_mapIndex f g m

/-- The loop over the meshes appends one record per mesh, in mesh order; the record of a mesh
has its face count and the texture name the mesh resolves to in the map at loop entry. -/
theorem foldl_buildMesh_records (scene : aiScene) (meshes : List aiMesh) (s : MeshLoop) :
    (meshes.foldl (buildMesh scene) s).loader.modelMeshes.map MeshInfo.summary
      = s.loader.modelMeshes.map MeshInfo.summary ++
        meshes.map fun mesh =>
          (mesh.mNumFaces, (resolveTexture scene mesh s.loader.textureNameMap).1) := by
  induction meshes generalizing s with
  | nil => simp
  | cons mesh rest ih =>
    rw [List.foldl_cons, ih, buildMesh_modelMeshes, buildMesh_textureNameMap]
    simp only [List.map_append, List.map_cons, List.map_nil, List.append_assoc,
      List.singleton_append, MeshInfo.summary, buildMesh_numberOfFaces, buildMesh_textureIndex,
      resolveTexture_stable]

theorem foldl_buildMesh_append (scene : aiScene) (meshes : List aiMesh) (s : MeshLoop) :
    ∃ records, (meshes.foldl (buildMesh scene) s).loader.modelMeshes
      = s.loader.modelMeshes ++ records := by
  induction meshes generalizing s with
  | nil => exact ⟨[], by simp⟩
  | cons mesh rest ih =>
    obtain ⟨records, h⟩ := ih (buildMesh scene s mesh)
    exact ⟨(buildMesh scene s mesh).newMeshInfo :: records, by
      rw [List.foldl_cons, h, buildMesh_modelMeshes]; simp⟩

/-- The records of `GenerateGLBuffers`: those present before, then one per mesh of the scene in
mesh order, each with the face count of its mesh and the texture name the mesh resolves to. -/
theorem GenerateGLBuffers_records (scene : aiScene) (loader : AssimpLoader) (gl : GLState) :
    (GenerateGLBuffers scene loader gl).1.modelMeshes.map MeshInfo.summary
      = loader.modelMeshes.map MeshInfo.summary ++
        scene.mMeshes.map fun mesh =>
          (mesh.mNumFaces, (resolveTexture scene mesh loader.textureNameMap).1) := by
  simp only [GenerateGLBuffers]
  exact foldl_buildMesh_records scene scene.mMeshes _

theorem GenerateGLBuffers_length (scene : aiScene) (loader : AssimpLoader) (gl : GLState) :
    (GenerateGLBuffers scene loader gl).1.modelMeshes.length
      = loader.modelMeshes.length + scene.mMeshes.length := by
  have h := congrArg List.length (GenerateGLBuffers_records scene loader gl)
  simpa using h

/-- The record stored for the mesh at index `i` of the scene. -/
theorem GenerateGLBuffers_record (scene : aiScene) (loader : AssimpLoader) (gl : GLState)
    (i : Nat) (mesh : aiMesh) (hi : scene.mMeshes[i]? = some mesh) :
    ∃ r, (GenerateGLBuffers scene loader gl).1.modelMeshes[loader.modelMeshes.length + i]?
        = some r ∧
      r.numberOfFaces = mesh.mNumFaces ∧
      r.textureIndex = (resolveTexture scene mesh loader.textureNameMap).1 := by
  have h := congrArg (fun l => l[loader.modelMeshes.length + i]?)
    (GenerateGLBuffers_records scene loader gl)
  simp only [List.getElem?_map] at h
  rw [List.getElem?_append_right (by simp)] at h
  simp only [List.length_map, Nat.add_sub_cancel_left, List.getElem?_map, hi,
    Option.map_some'] at h
  cases hr : (GenerateGLBuffers scene loader gl).1.modelMeshes[loader.modelMeshes.length + i]?
    with
  | none => simp [hr] at h
  | some r =>
    refine ⟨r, rfl, ?_⟩
    simp only [hr, Option.map_some', Option.some.injEq, MeshInfo.summary, Prod.mk.injEq] at h
    exact h

/-- Resolving a mesh leaves every name already stored in the map under its key. -/
theorem mapFind_resolveTexture (scene : aiScene) (mesh : aiMesh) (m : TextureNameMap)
    (q : String) (v : GLuint) (h : mapFind q m = some v) :
    mapFind q (resolveTexture scene mesh m).2 = some v := by
  unfold resolveTexture
  cases (scene.material mesh.mMaterialIndex).GetTexture 0 with
  | none => exact h
  | some g =>
    simp only [mapIndex]
    cases hg : mapFind g m with
    | some w => exact h
    | none =>
      simp only [mapFind_insertSorted q g 0 m hg]
      have : q ≠ g := fun e => by rw [e, hg] at h; cases h
      simp [this, h]

theorem foldl_buildMesh_mapFind (scene : aiScene) (meshes : List aiMesh) (s : MeshLoop)
    (q : String) (v : GLuint) (h : mapFind q s.loader.textureNameMap = some v) :
    mapFind q (meshes.foldl (buildMesh scene) s).loader.textureNameMap = some v := by
  induction meshes generalizing s with
  | nil => exact h
  | cons mesh rest ih =>
    rw [List.foldl_cons]
    apply ih
    rw [buildMesh_textureNameMap]
    exact mapFind_resolveTexture scene mesh _ q v h

/-- The names stored by `LoadTexturesToGL` are still in the map after `GenerateGLBuffers`. -/
theorem GenerateGLBuffers_textureNameMap (scene : aiScene) (loader : AssimpLoader)
    (gl : GLState) (q : String) (v : GLuint) (h : mapFind q loader.textureNameMap = some v) :
    mapFind q (GenerateGLBuffers scene loader gl).1.textureNameMap = some v := by
  simp only [GenerateGLBuffers]
  exact foldl_buildMesh_mapFind scene scene.mMeshes _ q v h

/-! ## Lemmas on `Load3DModel` -/

theorem Load3DModel_import (env : Env) (file : String) (loader : AssimpLoader) (gl : GLState)
    (scene : aiScene) (himport : env.ReadFile file = some scene) :
    Load3DModel env file loader gl
      = if (LoadTexturesToGL env scene file { loader with scene := some scene } gl).1 then
          (true,
            { (GenerateGLBuffers scene
                (LoadTexturesToGL env scene file { loader with scene := some scene } gl).2.1
                (LoadTexturesToGL env scene file { loader with scene := some scene } gl).2.2).1
              with isObjectLoaded := true },
            (GenerateGLBuffers scene
                (LoadTexturesToGL env scene file { loader with scene := some scene } gl).2.1
                (LoadTexturesToGL env scene file { loader with scene := some scene } gl).2.2).2)
        else
          (false, (LoadTexturesToGL env scene file { loader with scene := some scene } gl).2.1,
            (LoadTexturesToGL env scene file { loader with scene := some scene } gl).2.2) := by
  simp only [Load3DModel, himport]

/-- A material read through a mesh that has a first diffuse texture is a material of the
scene, and the file name is one of its diffuse file names. -/
theorem material_GetTexture_mem (scene : aiScene) (i : Nat) (f : String)
    (h : (scene.material i).GetTexture 0 = some f) :
    ∃ mtl ∈ scene.mMaterials, f ∈ mtl.diffuse := by
  unfold aiScene.material at h
  by_cases hi : i < scene.mMaterials.length
  · refine ⟨scene.mMaterials[i], List.getElem_mem _, ?_⟩
    simp only [List.getD_eq_getElem?_getD, List.getElem?_eq_getElem hi, Option.getD_some,
      aiMaterial.GetTexture] at h
    exact List.getElem?_mem h
  · simp [List.getD_eq_getElem?_getD, List.getElem?_eq_none (Nat.le_of_not_lt hi),
      aiMaterial.GetTexture] at h

/-! ## The claims -/

/-- C1: when the import succeeds and every diffuse texture of the scene decodes,
`Load3DModel` on an unloaded model with no record returns `true`, sets the loaded flag, and
leaves exactly one record per mesh of the scene, record `i` carrying the face count of mesh
`i`. -/
theorem Load3DModel_one_record_per_mesh (env : Env) (modelFilename : String)
    (loader : AssimpLoader) (gl : GLState) (scene : aiScene)
    (himport : env.ReadFile modelFilename = some scene)
    (_hscene : scene.wellFormed = true)
    (hdecode : ∀ mtl ∈ scene.mMaterials, ∀ f ∈ mtl.diffuse,
      (env.imread (env.GetDirectoryName modelFilename ++ "/" ++ f)).isSome = true)
    (_hunloaded : loader.isObjectLoaded = false) (hempty : loader.modelMeshes = []) :
    (Load3DModel env modelFilename loader gl).1 = true ∧
    (Load3DModel env modelFilename loader gl).2.1.isObjectLoaded = true ∧
    (Load3DModel env modelFilename loader gl).2.1.modelMeshes.length = scene.mMeshes.length ∧
    ∀ (i : Nat) (mesh : aiMesh), scene.mMeshes[i]? = some mesh →
      ∃ r, (Load3DModel env modelFilename loader gl).2.1.modelMeshes[i]? = some r ∧
        r.numberOfFaces = mesh.mNumFaces := by
  have hok := LoadTexturesToGL_ok env scene modelFilename { loader with scene := some scene } gl
    hdecode
  have hf := LoadTexturesToGL_fields env scene modelFilename
    { loader with scene := some scene } gl
  have hlen : (LoadTexturesToGL env scene modelFilename { loader with scene := some scene }
      gl).2.1.modelMeshes.length = 0 := by
    rw [hf.1]
    simp [hempty]
  rw [Load3DModel_import env modelFilename loader gl scene himport]
  simp only [hok, if_true]
  refine ⟨trivial, trivial, ?_, ?_⟩
  · rw [GenerateGLBuffers_length, hlen, Nat.zero_add]
  · intro i mesh hi
    obtain ⟨r, hr, hfaces, _⟩ := GenerateGLBuffers_record scene
      (LoadTexturesToGL env scene modelFilename { loader with scene := some scene } gl).2.1
      (LoadTexturesToGL env scene modelFilename { loader with scene := some scene } gl).2.2
      i mesh hi
    rw [hlen, Nat.zero_add] at hr
    exact ⟨r, hr, hfaces⟩

/-- C1, on the two-mesh scene of the spec: two records, with 10 and 5 faces. -/
theorem Load3DModel_one_record_per_mesh_witness :
    (Load3DModel Sample.device "/sdcard/m/wood.obj" (AssimpLoader.new Sample.shader)
        Sample.context).1 = true ∧
    (Load3DModel Sample.device "/sdcard/m/wood.obj" (AssimpLoader.new Sample.shader)
        Sample.context).2.1.modelMeshes.length = 2 ∧
    ∃ r, (Load3DModel Sample.device "/sdcard/m/wood.obj" (AssimpLoader.new Sample.shader)
        Sample.context).2.1.modelMeshes[1]? = some r ∧ r.numberOfFaces = 5 :=
  have h := Load3DModel_one_record_per_mesh Sample.device "/sdcard/m/wood.obj"
    (AssimpLoader.new Sample.shader) Sample.context Sample.woodScene (by decide) (by decide)
    (by decide) (by decide) (by decide)
  ⟨h.1, h.2.2.1, h.2.2.2 1 Sample.meshB (by decide)⟩

/-- C2: in a scene whose first mesh has one face and whose second mesh has none, the record of
the second mesh has face count 0 and, as face buffer, the buffer generated for the first mesh:
the handle is not absent. -/
theorem zero_face_record_keeps_previous_faceBuffer :
    (Load3DModel Sample.device "/sdcard/m/flat.obj" (AssimpLoader.new Sample.shader)
        Sample.context).2.1.modelMeshes.map (fun r => (r.numberOfFaces, r.faceBuffer))
      = [(1, some 1), (0, some 1)] := by
  decide

/-- C3: on the two-mesh scene of the spec the load succeeds, record 0 has 10 faces and the
name stored for "wood.png", record 1 has 5 faces and texture name 0, and the UV buffer of
record 1 is the buffer generated for mesh A: the handle is not absent. -/
theorem no_uv_record_keeps_previous_uv_buffer :
    (Load3DModel Sample.device "/sdcard/m/wood.obj" (AssimpLoader.new Sample.shader)
        Sample.context).1 = true ∧
    (Load3DModel Sample.device "/sdcard/m/wood.obj" (AssimpLoader.new Sample.shader)
        Sample.context).2.1.textureNameMap = [("wood.png", 1)] ∧
    (Load3DModel Sample.device "/sdcard/m/wood.obj" (AssimpLoader.new Sample.shader)
        Sample.context).2.1.modelMeshes
      = [ { textureIndex := 1, numberOfFaces := 10, faceBuffer := some 1,
            vertexBuffer := some 2, textureCoordBuffer := some 3 },
          { textureIndex := 0, numberOfFaces := 5, faceBuffer := some 4,
            vertexBuffer := some 5, textureCoordBuffer := some 3 } ] := by
  decide

/-- C4: after a successful `Load3DModel`, the records of two meshes whose materials have the
same first diffuse file name hold the same texture name, the one `LoadTexturesToGL` stored
under that file name in the texture name map. -/
theorem same_filename_same_texture (env : Env) (modelFilename : String)
    (loader : AssimpLoader) (gl : GLState) (scene : aiScene)
    (himport : env.ReadFile modelFilename = some scene)
    (hok : (Load3DModel env modelFilename loader gl).1 = true)
    (i j : Nat) (m1 m2 : aiMesh) (f : String)
    (h1 : scene.mMeshes[i]? = some m1) (h2 : scene.mMeshes[j]? = some m2)
    (hf1 : (scene.material m1.mMaterialIndex).GetTexture 0 = some f)
    (hf2 : (scene.material m2.mMaterialIndex).GetTexture 0 = some f) :
    ∃ h r1 r2,
      mapFind f (LoadTexturesToGL env scene modelFilename { loader with scene := some scene }
        gl).2.1.textureNameMap = some h ∧
      mapFind f (Load3DModel env modelFilename loader gl).2.1.textureNameMap = some h ∧
      (Load3DModel env modelFilename loader gl).2.1.modelMeshes[loader.modelMeshes.length + i]?
        = some r1 ∧
      (Load3DModel env modelFilename loader gl).2.1.modelMeshes[loader.modelMeshes.length + j]?
        = some r2 ∧
      r1.textureIndex = h ∧ r2.textureIndex = h := by
  have hload := Load3DModel_import env modelFilename loader gl scene himport
  have hf := LoadTexturesToGL_fields env scene modelFilename
    { loader with scene := some scene } gl
  cases ht : (LoadTexturesToGL env scene modelFilename { loader with scene := some scene }
      gl).1 with
  | false => simp [hload, ht] at hok
  | true =>
    have hkey : f ∈ (LoadTexturesToGL env scene modelFilename { loader with scene := some scene }
        gl).2.1.textureNameMap.map Prod.fst :=
      (LoadTexturesToGL_keys env scene modelFilename _ gl f).2
        (material_GetTexture_mem scene _ f hf1)
    obtain ⟨h, hh⟩ := Option.isSome_iff_exists.1 ((mapFind_isSome_iff f _).2 hkey)
    obtain ⟨r1, hr1, -, ht1⟩ := GenerateGLBuffers_record scene
      (LoadTexturesToGL env scene modelFilename { loader with scene := some scene } gl).2.1
      (LoadTexturesToGL env scene modelFilename { loader with scene := some scene } gl).2.2
      i m1 h1
    obtain ⟨r2, hr2, -, ht2⟩ := GenerateGLBuffers_record scene
      (LoadTexturesToGL env scene modelFilename { loader with scene := some scene } gl).2.1
      (LoadTexturesToGL env scene modelFilename { loader with scene := some scene } gl).2.2
      j m2 h2
    rw [hf.1] at hr1 hr2
    rw [resolveTexture_fst, hf1] at ht1
    rw [resolveTexture_fst, hf2] at ht2
    simp only [hh, Option.getD_some] at ht1 ht2
    refine ⟨h, r1, r2, hh, ?_, ?_, ?_, ht1, ht2⟩
    · rw [hload]
      simp only [ht, if_true]
      rw [GenerateGLBuffers_textureNameMap]
      exact hh
    · rw [hload]; simpa only [ht, if_true] using hr1
    · rw [hload]; simpa only [ht, if_true] using hr2

/-- C4, on a scene whose two meshes share the material with "wood.png": both records hold the
name stored under "wood.png". -/
theorem same_filename_same_texture_witness :
    ∃ h r1 r2,
      mapFind "wood.png" (LoadTexturesToGL Sample.device Sample.sharedScene "/sdcard/m/shared.obj"
        { AssimpLoader.new Sample.shader with scene := some Sample.sharedScene }
        Sample.context).2.1.textureNameMap = some h ∧
      mapFind "wood.png" (Load3DModel Sample.device "/sdcard/m/shared.obj"
        (AssimpLoader.new Sample.shader) Sample.context).2.1.textureNameMap = some h ∧
      (Load3DModel Sample.device "/sdcard/m/shared.obj" (AssimpLoader.new Sample.shader)
        Sample.context).2.1.modelMeshes[(AssimpLoader.new Sample.shader).modelMeshes.length + 0]?
        = some r1 ∧
      (Load3DModel Sample.device "/sdcard/m/shared.obj" (AssimpLoader.new Sample.shader)
        Sample.context).2.1.modelMeshes[(AssimpLoader.new Sample.shader).modelMeshes.length + 1]?
        = some r2 ∧
      r1.textureIndex = h ∧ r2.textureIndex = h :=
  same_filename_same_texture Sample.device "/sdcard/m/shared.obj"
    (AssimpLoader.new Sample.shader) Sample.context Sample.sharedScene (by decide) (by decide)
    0 1 Sample.meshA { Sample.meshB with mMaterialIndex := 0 } "wood.png" (by decide)
    (by decide) (by decide) (by decide)

/-! ## Lemmas on failure and reload -/

/-- The upload loop fails when an image still to visit does not decode. -/
theorem uploadTextures_fail (env : Env) (dir : String) (names : List GLuint) (i : Nat)
    (todo done : TextureNameMap) (gl : GLState)
    (h : ∃ f ∈ todo.map Prod.fst, env.imread (dir ++ "/" ++ f) = none) :
    (uploadTextures env dir names i todo done gl).1 = false := by
  induction todo generalizing i done gl with
  | nil => simp at h
  | cons e rest ih =>
    obtain ⟨g, old⟩ := e
    unfold uploadTextures
    cases hr : env.imread (dir ++ "/" ++ g) with
    | none => rfl
    | some img =>
      simp only
      apply ih
      obtain ⟨f, hf, hnone⟩ := h
      simp only [List.map_cons, List.mem_cons] at hf
      rcases hf with rfl | hf
      · rw [hr] at hnone; cases hnone
      · exact ⟨f, hf, hnone⟩

theorem LoadTexturesToGL_fail (env : Env) (scene : aiScene) (file : String)
    (loader : AssimpLoader) (gl : GLState)
    (h : ∃ mtl ∈ scene.mMaterials, ∃ f ∈ mtl.diffuse,
      env.imread (env.GetDirectoryName file ++ "/" ++ f) = none) :
    (LoadTexturesToGL env scene file loader gl).1 = false := by
  unfold LoadTexturesToGL
  apply uploadTextures_fail
  obtain ⟨mtl, hm, f, hf, hnone⟩ := h
  exact ⟨f, (mem_keys_registerMaterials f scene.mMaterials []).2 (Or.inl ⟨mtl, hm, hf⟩), hnone⟩

/-- A failed `Load3DModel` writes neither the loaded flag nor the record list. -/
theorem Load3DModel_false_fields (env : Env) (file : String) (loader : AssimpLoader)
    (gl : GLState) (hfail : (Load3DModel env file loader gl).1 = false) :
    (Load3DModel env file loader gl).2.1.isObjectLoaded = loader.isObjectLoaded ∧
    (Load3DModel env file loader gl).2.1.modelMeshes = loader.modelMeshes := by
  cases himport : env.ReadFile file with
  | none => simp [Load3DModel, himport]
  | some scene =>
    have hload := Load3DModel_import env file loader gl scene himport
    have hf := LoadTexturesToGL_fields env scene file { loader with scene := some scene } gl
    cases ht : (LoadTexturesToGL env scene file { loader with scene := some scene } gl).1 with
    | true => simp [hload, ht] at hfail
    | false =>
      rw [hload]
      simp only [ht, Bool.false_eq_true, if_false]
      exact ⟨hf.2.1, hf.1⟩

/-- The result `false` in the two failure cases. -/
theorem Load3DModel_false (env : Env) (file : String) (loader : AssimpLoader) (gl : GLState)
    (hfail : env.ReadFile file = none ∨
      ∃ scene, env.ReadFile file = some scene ∧ ∃ mtl ∈ scene.mMaterials, ∃ f ∈ mtl.diffuse,
        env.imread (env.GetDirectoryName file ++ "/" ++ f) = none) :
    (Load3DModel env file loader gl).1 = false := by
  rcases hfail with himport | ⟨scene, himport, hbad⟩
  · simp [Load3DModel, himport]
  · rw [Load3DModel_import env file loader gl scene himport]
    simp [LoadTexturesToGL_fail env scene file _ gl hbad]

/-- A successful `Load3DModel` sets the loaded flag and appends one record per mesh of the
scene, in mesh order, each with the face count of its mesh. -/
theorem Load3DModel_true_records (env : Env) (file : String) (loader : AssimpLoader)
    (gl : GLState) (scene : aiScene) (himport : env.ReadFile file = some scene)
    (hok : (Load3DModel env file loader gl).1 = true) :
    (Load3DModel env file loader gl).2.1.isObjectLoaded = true ∧
    (Load3DModel env file loader gl).2.1.modelMeshes.length
      = loader.modelMeshes.length + scene.mMeshes.length ∧
    (∃ records, (Load3DModel env file loader gl).2.1.modelMeshes
      = loader.modelMeshes ++ records) ∧
    ∀ (i : Nat) (mesh : aiMesh), scene.mMeshes[i]? = some mesh →
      ∃ r, (Load3DModel env file loader gl).2.1.modelMeshes[loader.modelMeshes.length + i]?
          = some r ∧ r.numberOfFaces = mesh.mNumFaces := by
  have hload := Load3DModel_import env file loader gl scene himport
  have hf := LoadTexturesToGL_fields env scene file { loader with scene := some scene } gl
  cases ht : (LoadTexturesToGL env scene file { loader with scene := some scene } gl).1 with
  | false => simp [hload, ht] at hok
  | true =>
    rw [hload]
    simp only [ht, if_true]
    refine ⟨trivial, ?_, ?_, ?_⟩
    · rw [GenerateGLBuffers_length, hf.1]
    · have h := foldl_buildMesh_append scene scene.mMeshes
        { newMeshInfo := MeshInfo.uninitialized,
          loader := (LoadTexturesToGL env scene file { loader with scene := some scene }
            gl).2.1,
          gl := (LoadTexturesToGL env scene file { loader with scene := some scene } gl).2.2 }
      simp only [hf.1] at h
      exact h
    · intro i mesh hi
      obtain ⟨r, hr, hfaces, _⟩ := GenerateGLBuffers_record scene
        (LoadTexturesToGL env scene file { loader with scene := some scene } gl).2.1
        (LoadTexturesToGL env scene file { loader with scene := some scene } gl).2.2
        i mesh hi
      rw [hf.1] at hr
      exact ⟨r, hr, hfaces⟩

/-- After `Delete3DModel` the model is unloaded; its record list is empty when it was loaded,
or was empty already. -/
theorem Delete3DModel_fields (loader : AssimpLoader)
    (hinv : loader.isObjectLoaded = false → loader.modelMeshes = []) :
    (Delete3DModel loader).isObjectLoaded = false ∧ (Delete3DModel loader).modelMeshes = [] := by
  unfold Delete3DModel
  cases h : loader.isObjectLoaded with
  | true => simp
  | false => simp [h, hinv h]

theorem Delete3DModel_isObjectLoaded (loader : AssimpLoader) :
    (Delete3DModel loader).isObjectLoaded = false := by
  unfold Delete3DModel
  cases h : loader.isObjectLoaded with
  | true => simp
  | false => simp [h]

/-- The model object after `ResetModel`, once the inits are done: the old one after
`Delete3DModel` when the asset cannot be extracted, otherwise the result of `Load3DModel` on
it. -/
theorem ResetModel_modelObject (env : Env) (obj : String) (app : ModelAssimp) (gl : GLState)
    (hinit : app.initsDone = true) :
    (ResetModel env obj app gl).1.modelObject
      = if (env.ExtractAssetReturnFilename obj).1 then
          (Load3DModel env (env.ExtractAssetReturnFilename obj).2
            (Delete3DModel app.modelObject) gl).2.1
        else Delete3DModel app.modelObject := by
  unfold ResetModel
  simp only [hinit, if_true]
  split <;> rfl

/-- C5, as stated, fails: a `Load3DModel` that fails on a loaded model, because the import
fails or because the texture does not decode, returns `false` and leaves the model loaded with
the two records of the model loaded before. -/
theorem failed_Load3DModel_on_loaded_model :
    (Load3DModel Sample.device "/sdcard/m/gone.obj" Sample.afterWood.2.1
      Sample.afterWood.2.2).1 = false ∧
    (Load3DModel Sample.device "/sdcard/m/gone.obj" Sample.afterWood.2.1
      Sample.afterWood.2.2).2.1.isObjectLoaded = true ∧
    (Load3DModel Sample.device "/sdcard/m/gone.obj" Sample.afterWood.2.1
      Sample.afterWood.2.2).2.1.modelMeshes.map MeshInfo.summary = [(10, 1), (5, 0)] ∧
    (Load3DModel Sample.deviceNoImage "/sdcard/m/wood.obj" Sample.afterWood.2.1
      Sample.afterWood.2.2).1 = false ∧
    (Load3DModel Sample.deviceNoImage "/sdcard/m/wood.obj" Sample.afterWood.2.1
      Sample.afterWood.2.2).2.1.isObjectLoaded = true ∧
    (Load3DModel Sample.deviceNoImage "/sdcard/m/wood.obj" Sample.afterWood.2.1
      Sample.afterWood.2.2).2.1.modelMeshes.map MeshInfo.summary = [(10, 1), (5, 0)] := by
  decide

/-- C5, amended: when the import fails or a diffuse texture of the imported scene does not
decode, `Load3DModel` returns `false` and leaves the loaded flag and the record list as they
were; and a `ResetModel` that comes to this `Load3DModel`, having called `Delete3DModel`
first, leaves the model unloaded with an empty record list. -/
theorem failed_Load3DModel_leaves_flag_and_records (env : Env) (file : String)
    (loader : AssimpLoader) (gl : GLState)
    (hfail : env.ReadFile file = none ∨
      ∃ scene, env.ReadFile file = some scene ∧ ∃ mtl ∈ scene.mMaterials, ∃ f ∈ mtl.diffuse,
        env.imread (env.GetDirectoryName file ++ "/" ++ f) = none) :
    (Load3DModel env file loader gl).1 = false ∧
    (Load3DModel env file loader gl).2.1.isObjectLoaded = loader.isObjectLoaded ∧
    (Load3DModel env file loader gl).2.1.modelMeshes = loader.modelMeshes ∧
    ∀ (app : ModelAssimp) (obj : String), app.initsDone = true →
      (app.modelObject.isObjectLoaded = false → app.modelObject.modelMeshes = []) →
      (env.ExtractAssetReturnFilename obj).2 = file →
      (ResetModel env obj app gl).1.modelObject.isObjectLoaded = false ∧
      (ResetModel env obj app gl).1.modelObject.modelMeshes = [] := by
  have hfalse : ∀ l, (Load3DModel env file l gl).1 = false :=
    fun l => Load3DModel_false env file l gl hfail
  refine ⟨hfalse loader, (Load3DModel_false_fields env file loader gl (hfalse loader)).1,
    (Load3DModel_false_fields env file loader gl (hfalse loader)).2, ?_⟩
  intro app obj hinit hinv hfile
  rw [ResetModel_modelObject env obj app gl hinit, hfile]
  have hd := Delete3DModel_fields app.modelObject hinv
  have hl := Load3DModel_false_fields env file (Delete3DModel app.modelObject) gl (hfalse _)
  split
  · exact ⟨hl.1.trans hd.1, hl.2.trans hd.2⟩
  · exact hd

/-- C5, amended, on the sample device: loading a file that cannot be imported into a new model
object fails and leaves it unloaded and empty, and a `ResetModel` to that file on the
application that shows the two-mesh scene leaves no record. -/
theorem failed_Load3DModel_leaves_flag_and_records_witness :
    (Load3DModel Sample.device "/sdcard/m/gone.obj" (AssimpLoader.new Sample.shader)
      Sample.context).1 = false ∧
    (Load3DModel Sample.device "/sdcard/m/gone.obj" (AssimpLoader.new Sample.shader)
      Sample.context).2.1.modelMeshes = (AssimpLoader.new Sample.shader).modelMeshes ∧
    (ResetModel Sample.device "gone.obj" Sample.app Sample.context).1.modelObject.isObjectLoaded
      = false ∧
    (ResetModel Sample.device "gone.obj" Sample.app Sample.context).1.modelObject.modelMeshes
      = [] :=
  have h := failed_Load3DModel_leaves_flag_and_records Sample.device "/sdcard/m/gone.obj"
    (AssimpLoader.new Sample.shader) Sample.context (Or.inl (by decide))
  ⟨h.1, h.2.2.1, h.2.2.2 Sample.app "gone.obj" (by decide) (by decide) (by decide)⟩

/-- C6, as stated, fails: a successful `Load3DModel` of the two-mesh scene followed by a
successful `Load3DModel` of another two-mesh scene leaves four records, the two of the first
scene (10 and 5 faces) before the two of the second (1 and 0 faces). -/
theorem second_Load3DModel_appends :
    Sample.afterWood.1 = true ∧
    (Load3DModel Sample.device "/sdcard/m/flat.obj" Sample.afterWood.2.1
      Sample.afterWood.2.2).1 = true ∧
    Sample.noFaceScene.mMeshes.length = 2 ∧
    (Load3DModel Sample.device "/sdcard/m/flat.obj" Sample.afterWood.2.1
      Sample.afterWood.2.2).2.1.modelMeshes.map (fun r => r.numberOfFaces) = [10, 5, 1, 0] := by
  decide

/-- C6, amended: after a successful `Load3DModel` of a first scene, a `ResetModel` (which
calls `Delete3DModel` and then `Load3DModel`) whose load of a second scene succeeds leaves the
model loaded with exactly one record per mesh of the second scene, record `i` carrying the face
count of its mesh `i`. -/
theorem ResetModel_replaces_records (env : Env) (file1 obj : String) (loader : AssimpLoader)
    (gl gl' : GLState) (scene2 : aiScene) (app : ModelAssimp)
    (hinit : app.initsDone = true)
    (hfirst : (Load3DModel env file1 loader gl).1 = true)
    (happ : app.modelObject = (Load3DModel env file1 loader gl).2.1)
    (hextract : (env.ExtractAssetReturnFilename obj).1 = true)
    (himport : env.ReadFile (env.ExtractAssetReturnFilename obj).2 = some scene2)
    (_hscene : scene2.wellFormed = true)
    (hsecond : (Load3DModel env (env.ExtractAssetReturnFilename obj).2
      (Delete3DModel app.modelObject) gl').1 = true) :
    (ResetModel env obj app gl').1.modelObject.isObjectLoaded = true ∧
    (ResetModel env obj app gl').1.modelObject.modelMeshes.length = scene2.mMeshes.length ∧
    ∀ (i : Nat) (mesh : aiMesh), scene2.mMeshes[i]? = some mesh →
      ∃ r, (ResetModel env obj app gl').1.modelObject.modelMeshes[i]? = some r ∧
        r.numberOfFaces = mesh.mNumFaces := by
  have hloaded : app.modelObject.isObjectLoaded = true := by
    rw [happ]
    cases h1 : env.ReadFile file1 with
    | none => simp [Load3DModel, h1] at hfirst
    | some scene1 => exact (Load3DModel_true_records env file1 loader gl scene1 h1 hfirst).1
  have hd := Delete3DModel_fields app.modelObject (fun h => by rw [hloaded] at h; cases h)
  obtain ⟨h1, h2, -, h4⟩ := Load3DModel_true_records env (env.ExtractAssetReturnFilename obj).2
    (Delete3DModel app.modelObject) gl' scene2 himport hsecond
  rw [hd.2, List.length_nil, Nat.zero_add] at h2
  rw [ResetModel_modelObject env obj app gl' hinit]
  simp only [hextract, if_true]
  refine ⟨h1, h2, ?_⟩
  intro i mesh hi
  obtain ⟨r, hr, hfaces⟩ := h4 i mesh hi
  rw [hd.2, List.length_nil, Nat.zero_add] at hr
  exact ⟨r, hr, hfaces⟩

/-- C6, amended, on the sample device: the application shows the two-mesh scene; after
`ResetModel` to the second sample scene its two records have 1 and 0 faces. -/
theorem ResetModel_replaces_records_witness :
    (ResetModel Sample.device "flat.obj" Sample.app Sample.afterWood.2.2).1.modelObject.modelMeshes.length
      = 2 ∧
    ∃ r, (ResetModel Sample.device "flat.obj" Sample.app
        Sample.afterWood.2.2).1.modelObject.modelMeshes[0]? = some r ∧ r.numberOfFaces = 1 :=
  have h := ResetModel_replaces_records Sample.device "/sdcard/m/wood.obj" "flat.obj"
    (AssimpLoader.new Sample.shader) Sample.context Sample.afterWood.2.2 Sample.noFaceScene
    Sample.app (by decide) (by decide) (by decide) (by decide) (by decide) (by decide)
    (by decide)
  ⟨h.2.1, h.2.2 0 Sample.oneFace (by decide)⟩

/-- C7: the loop body always appends a record; its texture name is the name the map holds
under the first diffuse file name of the material when that file name is a key, and `0` both
when the material has no diffuse texture and when the file name is not a key. -/
theorem buildMesh_texture_name (scene : aiScene) (s : MeshLoop) (mesh : aiMesh) :
    ∃ r, (buildMesh scene s mesh).loader.modelMeshes = s.loader.modelMeshes ++ [r] ∧
      (∀ (f : String) (h : GLuint),
        (scene.material mesh.mMaterialIndex).GetTexture 0 = some f →
        mapFind f s.loader.textureNameMap = some h → r.textureIndex = h) ∧
      ((scene.material mesh.mMaterialIndex).GetTexture 0 = none → r.textureIndex = 0) ∧
      (∀ (f : String), (scene.material mesh.mMaterialIndex).GetTexture 0 = some f →
        mapFind f s.loader.textureNameMap = none → r.textureIndex = 0) := by
  refine ⟨(buildMesh scene s mesh).newMeshInfo, buildMesh_modelMeshes scene s mesh, ?_, ?_, ?_⟩
  · intro f h hf hkey
    rw [buildMesh_textureIndex, resolveTexture_fst, hf]
    simp [hkey]
  · intro hf
    rw [buildMesh_textureIndex, resolveTexture_fst, hf]
  · intro f hf hkey
    rw [buildMesh_textureIndex, resolveTexture_fst, hf]
    simp [hkey]

/-- C7, on a map that holds "wood.png" under 7: mesh A, whose material names "wood.png", gets
7; mesh B gets 0 both with a material without texture and with a material that names
"iron.png", which is not a key. -/
theorem buildMesh_texture_name_witness :
    (∃ r, (buildMesh Sample.woodScene Sample.loop Sample.meshA).loader.modelMeshes
        = Sample.loop.loader.modelMeshes ++ [r] ∧ r.textureIndex = 7) ∧
    (∃ r, (buildMesh Sample.woodScene Sample.loop Sample.meshB).loader.modelMeshes
        = Sample.loop.loader.modelMeshes ++ [r] ∧ r.textureIndex = 0) ∧
    (∃ r, (buildMesh Sample.otherScene Sample.loop Sample.meshB).loader.modelMeshes
        = Sample.loop.loader.modelMeshes ++ [r] ∧ r.textureIndex = 0) :=
  ⟨(buildMesh_texture_name Sample.woodScene Sample.loop Sample.meshA).elim
      fun r h => ⟨r, h.1, h.2.1 "wood.png" 7 (by decide) (by decide)⟩,
    (buildMesh_texture_name Sample.woodScene Sample.loop Sample.meshB).elim
      fun r h => ⟨r, h.1, h.2.2.1 (by decide)⟩,
    (buildMesh_texture_name Sample.otherScene Sample.loop Sample.meshB).elim
      fun r h => ⟨r, h.1, h.2.2.2 "iron.png" (by decide) (by decide)⟩⟩

/-! ## Lemmas on `Render3DModel` -/

theorem foldl_issue_calls (cs : List GLCall) (gl : GLState) :
    (cs.foldl GLState.issue gl).calls = gl.calls ++ cs ∧
    (cs.foldl GLState.issue gl).textures = gl.textures ∧
    (cs.foldl GLState.issue gl).buffers = gl.buffers := by
  induction cs generalizing gl with
  | nil => simp
  | cons c rest ih =>
    rw [List.foldl_cons]
    obtain ⟨h1, h2, h3⟩ := ih (gl.issue c)
    refine ⟨?_, h2, h3⟩
    rw [h1]
    simp [GLState.issue]

theorem foldl_renderMesh_calls (shader : ShaderIds) (records : List MeshInfo) (gl : GLState) :
    (records.foldl (renderMesh shader) gl).calls
      = gl.calls ++ records.flatMap (renderMeshCalls shader) := by
  induction records generalizing gl with
  | nil => simp
  | cons r rest ih =>
    rw [List.foldl_cons, ih, renderMesh, (foldl_issue_calls _ gl).1]
    simp

/-- A product below `2 ^ 31` is the `int` it is read as. -/
theorem int32_of_lt (n : Nat) (h : n < 2 ^ 31) : int32 n = (n : Int) := by
  have hmod : n % 2 ^ 32 = n := Nat.mod_eq_of_lt (by omega)
  unfold int32
  rw [hmod, if_pos h]

/-- The wrap of line 354: with 1431655766 faces the count passed is 2. -/
theorem int32_wraps : int32 (1431655766 * 3) = 2 := by decide

theorem flatMap_congr_mem {α β : Type} (l : List α) (f g : α → List β)
    (h : ∀ a ∈ l, f a = g a) : l.flatMap f = l.flatMap g := by
  induction l with
  | nil => rfl
  | cons a rest ih =>
    rw [List.flatMap_cons, List.flatMap_cons, h a (List.mem_cons_self _ _),
      ih (fun b hb => h b (List.mem_cons_of_mem _ hb))]

/-- The texture binds and the draws among the calls for one record. -/
theorem renderMeshCalls_filter (shader : ShaderIds) (r : MeshInfo) :
    (renderMeshCalls shader r).filter GLCall.isTextureOrDraw
      = (if r.textureIndex ≠ 0 then [GLCall.glBindTexture r.textureIndex] else []) ++
        [GLCall.glDrawElements (int32 (r.numberOfFaces * 3))] := by
  unfold renderMeshCalls
  by_cases h : r.textureIndex = 0
  · simp [h, GLCall.isTextureOrDraw]
  · simp [h, GLCall.isTextureOrDraw]

theorem renderMeshCalls_draws (shader : ShaderIds) (r : MeshInfo) :
    (renderMeshCalls shader r).filterMap GLCall.drawCount
      = [int32 (r.numberOfFaces * 3)] := by
  unfold renderMeshCalls
  by_cases h : r.textureIndex = 0
  · simp [h, GLCall.drawCount]
  · simp [h, GLCall.drawCount]

theorem filter_flatMap_renderMeshCalls (shader : ShaderIds) (records : List MeshInfo) :
    (records.flatMap (renderMeshCalls shader)).filter GLCall.isTextureOrDraw
      = records.flatMap fun r =>
          (if r.textureIndex ≠ 0 then [GLCall.glBindTexture r.textureIndex] else []) ++
          [GLCall.glDrawElements (int32 (r.numberOfFaces * 3))] := by
  induction records with
  | nil => simp
  | cons r rest ih =>
    simp only [List.flatMap_cons, List.filter_append, ih, renderMeshCalls_filter]

theorem filterMap_flatMap_renderMeshCalls (shader : ShaderIds) (records : List MeshInfo) :
    (records.flatMap (renderMeshCalls shader)).filterMap GLCall.drawCount
      = records.map fun r => int32 (r.numberOfFaces * 3) := by
  induction records with
  | nil => simp
  | cons r rest ih =>
    simp only [List.flatMap_cons, List.filterMap_append, ih, renderMeshCalls_draws,
      List.map_cons, List.singleton_append]

/-- C8: on a loaded model whose records have face counts with `3 * numberOfFaces` below
`2 ^ 31`, so that the product of line 354 fits the `GLsizei` it is passed as, `Render3DModel`
appends to the log calls among which the draws are, in list order, one per record with index
count three times its face count, and among which the texture binds and the draws are, record
after record, a bind of the texture name of the record when that name is not `0`, then the draw
of the record. -/
theorem Render3DModel_draws_every_record (mvpMat : List GLfloat) (loader : AssimpLoader)
    (gl : GLState) (hloaded : loader.isObjectLoaded = true)
    (hfit : ∀ r ∈ loader.modelMeshes, 3 * r.numberOfFaces < 2 ^ 31) :
    ∃ issued, (Render3DModel mvpMat loader gl).2.calls = gl.calls ++ issued ∧
      issued.filterMap GLCall.drawCount
        = loader.modelMeshes.map (fun r => ((3 * r.numberOfFaces : Nat) : Int)) ∧
      issued.filter GLCall.isTextureOrDraw
        = loader.modelMeshes.flatMap fun r =>
            (if r.textureIndex ≠ 0 then [GLCall.glBindTexture r.textureIndex] else []) ++
            [GLCall.glDrawElements ((3 * r.numberOfFaces : Nat) : Int)] := by
  have hcount : ∀ r ∈ loader.modelMeshes,
      int32 (r.numberOfFaces * 3) = ((3 * r.numberOfFaces : Nat) : Int) := by
    intro r hr
    rw [Nat.mul_comm]
    exact int32_of_lt _ (hfit r hr)
  refine ⟨[GLCall.glClear, GLCall.glUseProgram loader.shader.shaderProgramID,
      GLCall.glUniformMatrix4fv loader.shader.mvpLocation mvpMat, GLCall.glActiveTexture0,
      GLCall.glUniform1i loader.shader.textureSamplerLocation 0] ++
      loader.modelMeshes.flatMap (renderMeshCalls loader.shader), ?_, ?_, ?_⟩
  · simp [Render3DModel, hloaded, foldl_renderMesh_calls, GLState.issue]
  · rw [List.filterMap_append, filterMap_flatMap_renderMeshCalls]
    simp only [GLCall.drawCount, List.filterMap_cons, List.filterMap_nil, List.nil_append]
    exact List.map_congr_left hcount
  · rw [List.filter_append, filter_flatMap_renderMeshCalls]
    simp only [GLCall.isTextureOrDraw, List.filter_cons, Bool.false_eq_true, if_false,
      List.filter_nil, List.nil_append]
    exact flatMap_congr_mem _ _ _ (fun r hr => by rw [hcount r hr])

/-- C8, on the model that holds the two-mesh sample scene: two draws, of 30 and 15 indices,
and one texture bind, of the name 1, before the first draw. -/
theorem Render3DModel_draws_every_record_witness :
    ∃ issued, (Render3DModel [] Sample.afterWood.2.1 Sample.afterWood.2.2).2.calls
        = Sample.afterWood.2.2.calls ++ issued ∧
      issued.filterMap GLCall.drawCount = [30, 15] ∧
      issued.filter GLCall.isTextureOrDraw
        = [GLCall.glBindTexture 1, GLCall.glDrawElements 30, GLCall.glDrawElements 15] :=
  (Render3DModel_draws_every_record [] Sample.afterWood.2.1 Sample.afterWood.2.2
    (by decide) (by decide)).elim fun issued h =>
      ⟨issued, h.1, h.2.1.trans (by decide), h.2.2.trans (by decide)⟩

/-- C9: on a model that is not loaded `Render3DModel` returns the model object and the context
as they were, so it issues no call; a newly constructed model object is not loaded, and neither
is any model object after `Delete3DModel`. -/
theorem Render3DModel_unloaded (mvpMat : List GLfloat) (gl : GLState) :
    (∀ (loader : AssimpLoader), loader.isObjectLoaded = false →
      Render3DModel mvpMat loader gl = (loader, gl)) ∧
    (∀ (shader : ShaderIds),
      Render3DModel mvpMat (AssimpLoader.new shader) gl = (AssimpLoader.new shader, gl)) ∧
    (∀ (loader : AssimpLoader),
      Render3DModel mvpMat (Delete3DModel loader) gl = (Delete3DModel loader, gl)) := by
  have h : ∀ (loader : AssimpLoader), loader.isObjectLoaded = false →
      Render3DModel mvpMat loader gl = (loader, gl) := by
    intro loader hl
    simp [Render3DModel, hl]
  exact ⟨h, fun shader => h _ rfl, fun loader => h _ (Delete3DModel_isObjectLoaded loader)⟩

/-- C9, on the sample data: rendering the model object that failed to load a missing file, a
new model object, and the loaded sample model after `Delete3DModel`, leaves the context with
an empty log. -/
theorem Render3DModel_unloaded_witness :
    (Render3DModel [] (Load3DModel Sample.device "/sdcard/m/gone.obj"
      (AssimpLoader.new Sample.shader) Sample.context).2.1 Sample.context).2.calls = [] ∧
    (Render3DModel [] (AssimpLoader.new Sample.shader) Sample.context).2.calls = [] ∧
    (Render3DModel [] (Delete3DModel Sample.afterWood.2.1) Sample.context).2.calls = [] :=
  have h := Render3DModel_unloaded [] Sample.context
  ⟨congrArg (fun p => p.2.calls) (h.1 _ (by decide)),
    congrArg (fun p => p.2.calls) (h.2.1 Sample.shader),
    congrArg (fun p => p.2.calls) (h.2.2 Sample.afterWood.2.1)⟩

/-! ## Lemmas on generated names and on the number of registered file names -/

theorem le_foldr_max (used : List GLuint) (x : GLuint) (h : x ∈ used) :
    x ≤ used.foldr max 0 := by
  induction used with
  | nil => simp at h
  | cons y rest ih =>
    simp only [List.foldr_cons]
    rcases List.mem_cons.1 h with rfl | h
    · exact Nat.le_max_left _ _
    · exact Nat.le_trans (ih h) (Nat.le_max_right _ _)

theorem freshName_not_mem (used : List GLuint) : freshName used ∉ used := by
  intro h
  exact Nat.not_succ_le_self _ (le_foldr_max used _ h)

theorem genNames_length (n : Nat) (used : List GLuint) : (genNames n used).length = n := by
  induction n generalizing used with
  | zero => rfl
  | succ n ih => simp [genNames, ih]

theorem genNames_fresh (n : Nat) (used : List GLuint) :
    ∀ x ∈ genNames n used, x ∉ used := by
  induction n generalizing used with
  | zero => simp [genNames]
  | succ n ih =>
    intro x hx
    simp only [genNames, List.mem_cons] at hx
    rcases hx with rfl | hx
    · exact freshName_not_mem used
    · intro hmem
      exact ih (used ++ [freshName used]) x hx (List.mem_append_left _ hmem)

theorem genNames_nodup (n : Nat) (used : List GLuint) : (genNames n used).Nodup := by
  induction n generalizing used with
  | zero => simp [genNames]
  | succ n ih =>
    simp only [genNames, List.nodup_cons]
    refine ⟨?_, ih _⟩
    intro hmem
    exact genNames_fresh n (used ++ [freshName used]) _ hmem (by simp)

theorem nodup_keys_insertSorted (k : String) (v : GLuint) (m : TextureNameMap)
    (hk : k ∉ m.map Prod.fst) (hm : (m.map Prod.fst).Nodup) :
    ((insertSorted k v m).map Prod.fst).Nodup := by
  induction m with
  | nil => simp [insertSorted]
  | cons e rest ih =>
    obtain ⟨k', v'⟩ := e
    simp only [List.map_cons, List.mem_cons, not_or, List.nodup_cons] at hk hm
    by_cases h : stringLess k.data k'.data = true
    · simp only [insertSorted, h, if_true, List.map_cons, List.nodup_cons, List.mem_cons, not_or]
      exact ⟨⟨hk.1, hk.2⟩, hm.1, hm.2⟩
    · have h' : stringLess k.data k'.data = false := by simpa using h
      simp only [insertSorted, h', Bool.false_eq_true, if_false, List.map_cons,
        List.nodup_cons, mem_keys_insertSorted, not_or]
      exact ⟨⟨fun e => hk.1 e.symm, hm.1⟩, ih hk.2 hm.2⟩

theorem nodup_keys_mapInsert (k : String) (v : GLuint) (m : TextureNameMap)
    (hm : (m.map Prod.fst).Nodup) : ((mapInsert k v m).map Prod.fst).Nodup := by
  unfold mapInsert
  cases hk : mapFind k m with
  | some w => exact hm
  | none => exact nodup_keys_insertSorted k v m ((mapFind_eq_none_iff k m).1 hk) hm

theorem nodup_keys_registerTextures (names : List String) (m : TextureNameMap)
    (hm : (m.map Prod.fst).Nodup) : ((registerTextures names m).map Prod.fst).Nodup := by
  induction names generalizing m with
  | nil => exact hm
  | cons f more ih => exact ih _ (nodup_keys_mapInsert f 0 m hm)

theorem nodup_keys_registerMaterials (mtls : List aiMaterial) (m : TextureNameMap)
    (hm : (m.map Prod.fst).Nodup) : ((registerMaterials mtls m).map Prod.fst).Nodup := by
  induction mtls generalizing m with
  | nil => exact hm
  | cons mtl more ih => exact ih _ (nodup_keys_registerTextures mtl.diffuse m hm)

/-- The map built by the first loop of `LoadTexturesToGL` has one entry per distinct diffuse
file name of the scene. -/
theorem registerMaterials_length (mtls : List aiMaterial) :
    (registerMaterials mtls []).length = (mtls.flatMap fun mtl => mtl.diffuse).dedup.length := by
  have hnodup := nodup_keys_registerMaterials mtls [] (by simp)
  have hperm : ((registerMaterials mtls []).map Prod.fst).Perm
      (mtls.flatMap fun mtl => mtl.diffuse).dedup := by
    rw [List.perm_ext_iff_of_nodup hnodup (List.nodup_dedup _)]
    intro q
    rw [mem_keys_registerMaterials, List.mem_dedup, List.mem_flatMap]
    simp
  simpa using hperm.length_eq

/-- C10, as stated, fails: loading the two-mesh sample scene on a device where "wood.png" does
not decode returns `false`, and the texture generated for "wood.png" is still live afterwards,
in a context that had no live texture before. -/
theorem failed_texture_load_leaves_texture :
    Sample.context.textures = [] ∧
    (Load3DModel Sample.deviceNoImage "/sdcard/m/wood.obj" (AssimpLoader.new Sample.shader)
      Sample.context).1 = false ∧
    (Load3DModel Sample.deviceNoImage "/sdcard/m/wood.obj" (AssimpLoader.new Sample.shader)
      Sample.context).2.2.textures = [1] := by
  decide

/-- C10, amended: when a diffuse texture of the imported scene does not decode, `Load3DModel`
returns `false` having generated no buffer and deleted nothing: the live textures are those
live before followed by the names generated by `LoadTexturesToGL`, which are new, distinct,
and as many as the distinct diffuse file names of the scene, at least one. -/
theorem failed_texture_load_keeps_generated_textures (env : Env) (file : String)
    (loader : AssimpLoader) (gl : GLState) (scene : aiScene)
    (himport : env.ReadFile file = some scene)
    (hbad : ∃ mtl ∈ scene.mMaterials, ∃ f ∈ mtl.diffuse,
      env.imread (env.GetDirectoryName file ++ "/" ++ f) = none) :
    (Load3DModel env file loader gl).1 = false ∧
    (Load3DModel env file loader gl).2.2.buffers = gl.buffers ∧
    ∃ names, (Load3DModel env file loader gl).2.2.textures = gl.textures ++ names ∧
      names.length = (scene.mMaterials.flatMap fun mtl => mtl.diffuse).dedup.length ∧
      0 < names.length ∧ names.Nodup ∧ ∀ n ∈ names, n ∉ gl.textures := by
  have ht := LoadTexturesToGL_fail env scene file { loader with scene := some scene } gl hbad
  have ho := LoadTexturesToGL_objects env scene file { loader with scene := some scene } gl
  rw [Load3DModel_import env file loader gl scene himport]
  simp only [ht, Bool.false_eq_true, if_false]
  refine ⟨trivial, ho.2, genNames (registerMaterials scene.mMaterials []).length gl.textures,
    ho.1, ?_, ?_, genNames_nodup _ _, genNames_fresh _ _⟩
  · rw [genNames_length, registerMaterials_length]
  · rw [genNames_length, registerMaterials_length]
    obtain ⟨mtl, hm, f, hf, -⟩ := hbad
    apply List.length_pos_of_mem (a := f)
    rw [List.mem_dedup, List.mem_flatMap]
    exact ⟨mtl, hm, hf⟩

/-- C10, amended, on the sample device without the image: the failed load leaves one new live
texture and no buffer. -/
theorem failed_texture_load_keeps_generated_textures_witness :
    (Load3DModel Sample.deviceNoImage "/sdcard/m/wood.obj" (AssimpLoader.new Sample.shader)
      Sample.context).2.2.buffers = Sample.context.buffers ∧
    ∃ names, (Load3DModel Sample.deviceNoImage "/sdcard/m/wood.obj"
        (AssimpLoader.new Sample.shader) Sample.context).2.2.textures
        = Sample.context.textures ++ names ∧ names.length = 1 :=
  have h := failed_texture_load_keeps_generated_textures Sample.deviceNoImage
    "/sdcard/m/wood.obj" (AssimpLoader.new Sample.shader) Sample.context Sample.woodScene
    (by decide) (by decide)
  ⟨h.2.1, h.2.2.elim fun names hn => ⟨names, hn.1, hn.2.1.trans (by decide)⟩⟩

/-! ## Lemmas on `faceArray` -/

theorem memcpy3_length (arr : List Cell) (off : Nat) (src : List Nat) :
    (memcpy3 arr off src).length = arr.length := by
  simp [memcpy3]

theorem memcpy3_getElem?_lt (arr : List Cell) (off : Nat) (src : List Nat) (i : Nat)
    (hi : i < off) : (memcpy3 arr off src)[i]? = arr[i]? := by
  simp only [memcpy3, List.getElem?_set]
  have h0 : off ≠ i := by omega
  have h1 : off + 1 ≠ i := by omega
  have h2 : off + 2 ≠ i := by omega
  simp [h0, h1, h2]

theorem memcpy3_getElem?_copied (arr : List Cell) (off : Nat) (src : List Nat) (j : Nat)
    (hj : j < 3) (hlen : off + j < arr.length) :
    (memcpy3 arr off src)[off + j]? = some src[j]? := by
  simp only [memcpy3, List.getElem?_set, List.length_set]
  have : j = 0 ∨ j = 1 ∨ j = 2 := by omega
  rcases this with rfl | rfl | rfl
  · have : off + 0 < arr.length := hlen
    simp at this
    simp [this]
  · simp [hlen]
  · simp [hlen]

theorem copyFaces_length (faces : List aiFace) (off : Nat) (arr : List Cell) :
    (copyFaces faces off arr).length = arr.length := by
  induction faces generalizing off arr with
  | nil => rfl
  | cons f more ih => rw [copyFaces, ih, memcpy3_length]

/-- While `faceIndex` does not wrap, the loop leaves the cells before `faceIndex` as they
are. -/
theorem copyFaces_getElem?_lt (faces : List aiFace) (off : Nat) (arr : List Cell) (i : Nat)
    (hfit : off + 3 * faces.length < 2 ^ 32) (hi : i < off) :
    (copyFaces faces off arr)[i]? = arr[i]? := by
  induction faces generalizing off arr with
  | nil => rfl
  | cons f more ih =>
    rw [List.length_cons] at hfit
    have hmod : (off + 3) % 2 ^ 32 = off + 3 := Nat.mod_eq_of_lt (by omega)
    rw [copyFaces, hmod, ih (off + 3) _ (by omega) (by omega),
      memcpy3_getElem?_lt arr off _ i hi]

/-- While `faceIndex` does not wrap, the cell `faceIndex + 3 * t + j` holds cell `j` of the
index array of face `t`, which is indeterminate when the face has no more than `j` indices. -/
theorem copyFaces_getElem? (faces : List aiFace) (off : Nat) (arr : List Cell) (t j : Nat)
    (face : aiFace) (hfit : off + 3 * faces.length < 2 ^ 32)
    (ht : faces[t]? = some face) (hj : j < 3)
    (hlen : off + 3 * t + j < arr.length) :
    (copyFaces faces off arr)[off + 3 * t + j]? = some face.mIndices[j]? := by
  induction faces generalizing off arr t with
  | nil => simp at ht
  | cons f more ih =>
    rw [List.length_cons] at hfit
    have hmod : (off + 3) % 2 ^ 32 = off + 3 := Nat.mod_eq_of_lt (by omega)
    rw [copyFaces, hmod]
    cases t with
    | zero =>
      simp only [List.getElem?_cons_zero, Option.some.injEq] at ht
      subst ht
      simp only [Nat.mul_zero, Nat.add_zero] at hlen ⊢
      rw [copyFaces_getElem?_lt more (off + 3) _ (off + j) (by omega) (by omega)]
      exact memcpy3_getElem?_copied arr off _ j hj hlen
    | succ t =>
      simp only [List.getElem?_cons_succ] at ht
      have e : off + 3 * (t + 1) + j = off + 3 + 3 * t + j := by omega
      rw [e] at hlen ⊢
      exact ih (off + 3) _ t (by omega) ht (by rw [memcpy3_length]; exact hlen)

/-- The number of cells allocated, whatever the face count: the 32-bit product. -/
theorem faceArray_length_mod (mesh : aiMesh) :
    (faceArray mesh).length = (mesh.mNumFaces * 3) % 2 ^ 32 := by
  simp [faceArray, copyFaces_length]

/-- The wrap of line 74: with 1431655766 faces the array has 2 cells. -/
theorem faceArray_length_wraps (mesh : aiMesh) (h : mesh.mNumFaces = 1431655766) :
    (faceArray mesh).length = 2 := by
  rw [faceArray_length_mod, h]
  decide

theorem faceArray_length (mesh : aiMesh) (hfit : mesh.mNumFaces * 3 < 2 ^ 32) :
    (faceArray mesh).length = mesh.mNumFaces * 3 := by
  rw [faceArray_length_mod, Nat.mod_eq_of_lt hfit]

/-- The array uploaded for the faces, when the product of line 74 does not wrap: cell
`3 * t + j` is cell `j` of the index array of face `t`. -/
theorem faceArray_getElem? (mesh : aiMesh) (hfit : mesh.mNumFaces * 3 < 2 ^ 32) (t j : Nat)
    (face : aiFace) (ht : mesh.mFaces[t]? = some face) (hj : j < 3) :
    (faceArray mesh)[3 * t + j]? = some face.mIndices[j]? := by
  have hlt : t < mesh.mFaces.length := by
    rcases Nat.lt_or_ge t mesh.mFaces.length with h | h
    · exact h
    · rw [List.getElem?_eq_none h] at ht; cases ht
  have hmod : (mesh.mNumFaces * 3) % 2 ^ 32 = mesh.mNumFaces * 3 := Nat.mod_eq_of_lt hfit
  unfold aiMesh.mNumFaces at hfit hmod
  have h := copyFaces_getElem? mesh.mFaces 0 (List.replicate (mesh.mFaces.length * 3) none) t j
    face (by omega) ht hj (by rw [List.length_replicate]; omega)
  rw [Nat.zero_add] at h
  unfold faceArray aiMesh.mNumFaces
  rw [hmod]
  exact h

/-! ## Lemmas on the element buffer upload -/

/-- The calls of the loop body for one mesh with at least one face: the three calls for the
faces, then those for the positions and the texture coordinates, then the two unbinds. -/
theorem buildMesh_calls (scene : aiScene) (s : MeshLoop) (mesh : aiMesh)
    (hF : mesh.mNumFaces ≠ 0) :
    ∃ issued, (buildMesh scene s mesh).gl.calls = s.gl.calls ++ issued ∧
      issued.filterMap GLCall.elementData = [(4 * mesh.mNumFaces * 3, faceArray mesh)] := by
  unfold buildMesh uploadFaces uploadPositions uploadTextureCoords
  simp only [hF, ne_eq, not_false_eq_true, if_true]
  cases mesh.HasPositions <;> cases mesh.HasTextureCoords0 <;>
    simp [GLState.issue, glGenBuffers, GLCall.elementData]

/-- With at least three indices in every face and no wrap of the product of line 74, no cell
of `faceArray` is indeterminate. -/
theorem faceArray_determinate (mesh : aiMesh) (hfit : mesh.mNumFaces * 3 < 2 ^ 32)
    (h3 : ∀ face ∈ mesh.mFaces, 3 ≤ face.mIndices.length) :
    ∀ c ∈ faceArray mesh, c.isSome = true := by
  intro c hc
  obtain ⟨n, hn⟩ := List.mem_iff_getElem?.1 hc
  have hlt : n < (faceArray mesh).length := by
    rcases Nat.lt_or_ge n (faceArray mesh).length with h | h
    · exact h
    · rw [List.getElem?_eq_none h] at hn; cases hn
  rw [faceArray_length mesh hfit] at hlt
  have ht : n / 3 < mesh.mFaces.length := by
    unfold aiMesh.mNumFaces at hlt
    omega
  have hface : mesh.mFaces[n / 3]? = some mesh.mFaces[n / 3] := List.getElem?_eq_getElem ht
  have hj : n % 3 < 3 := Nat.mod_lt _ (by decide)
  have hcell := faceArray_getElem? mesh hfit (n / 3) (n % 3) _ hface hj
  rw [Nat.div_add_mod] at hcell
  rw [hn] at hcell
  have hlen := h3 _ (List.getElem_mem ht)
  have : n % 3 < (mesh.mFaces[n / 3]).mIndices.length := by omega
  rw [List.getElem?_eq_getElem this] at hcell
  cases hcell
  rfl

/-- C12: for a mesh with `F > 0` faces, every face having at least three indices, and with
`4 * F * 3` below `2 ^ 31`, so that neither the 32-bit product `mNumFaces * 3` of line 74, nor
`faceIndex`, nor the byte size of line 92 wraps, the loop body of `GenerateGLBuffers` uploads
to the element buffer exactly one array, `faceArray`, as `4 * F * 3` bytes; the array has
`3 * F` cells, cell `3 * t + j` is index `j` of face `t` for every `t < F` and `j < 3` (so
every write lands inside the array), and no cell is indeterminate (so no read went past an
index array). -/
theorem element_buffer_holds_face_triples (scene : aiScene) (s : MeshLoop) (mesh : aiMesh)
    (hF : 0 < mesh.mNumFaces)
    (h3 : ∀ face ∈ mesh.mFaces, 3 ≤ face.mIndices.length)
    (hfit : 4 * mesh.mNumFaces * 3 < 2 ^ 31) :
    (∃ issued, (buildMesh scene s mesh).gl.calls = s.gl.calls ++ issued ∧
      issued.filterMap GLCall.elementData = [(4 * mesh.mNumFaces * 3, faceArray mesh)]) ∧
    (faceArray mesh).length = 3 * mesh.mNumFaces ∧
    (∀ (t j : Nat) (face : aiFace), mesh.mFaces[t]? = some face → j < 3 →
      3 * t + j < (faceArray mesh).length ∧
      ∃ index, face.mIndices[j]? = some index ∧
        (faceArray mesh)[3 * t + j]? = some (some index)) ∧
    ∀ c ∈ faceArray mesh, c.isSome = true := by
  have hfit32 : mesh.mNumFaces * 3 < 2 ^ 32 := by omega
  refine ⟨buildMesh_calls scene s mesh (Nat.pos_iff_ne_zero.1 hF), ?_, ?_,
    faceArray_determinate mesh hfit32 h3⟩
  · rw [faceArray_length mesh hfit32, Nat.mul_comm]
  · intro t j face ht hj
    have hmem : face ∈ mesh.mFaces := List.getElem?_mem ht
    have hlen := h3 face hmem
    have htlt : t < mesh.mFaces.length := by
      rcases Nat.lt_or_ge t mesh.mFaces.length with h | h
      · exact h
      · rw [List.getElem?_eq_none h] at ht; cases ht
    have hjlt : j < face.mIndices.length := by omega
    refine ⟨?_, face.mIndices[j], List.getElem?_eq_getElem hjlt, ?_⟩
    · rw [faceArray_length mesh hfit32]
      unfold aiMesh.mNumFaces
      omega
    · rw [faceArray_getElem? mesh hfit32 t j face ht hj, List.getElem?_eq_getElem hjlt]

/-- C12, on mesh A of the sample scene, 10 triangles over consecutive vertices: the array has
30 cells and cell 3 * 4 + 2 is 14, index 2 of face 4. -/
theorem element_buffer_holds_face_triples_witness :
    (faceArray Sample.meshA).length = 3 * 10 ∧
    ∃ index, (Sample.triangle 4).mIndices[2]? = some index ∧
      (faceArray Sample.meshA)[3 * 4 + 2]? = some (some index) :=
  have h := element_buffer_holds_face_triples Sample.woodScene Sample.loop Sample.meshA
    (by decide) (by decide) (by decide)
  ⟨h.2.1, (h.2.2.1 4 2 (Sample.triangle 4) (by decide) (by decide)).2⟩

/-! ## Lemmas on the objects generated by `GenerateGLBuffers` -/

theorem glGenBuffers_objects (gl : GLState) :
    (glGenBuffers gl).2.buffers = gl.buffers ++ [(glGenBuffers gl).1] ∧
    (glGenBuffers gl).1 ∉ gl.buffers ∧ (glGenBuffers gl).2.textures = gl.textures :=
  ⟨rfl, freshName_not_mem gl.buffers, rfl⟩

/-- Each of the three upload steps appends to the live buffers the names it generates, none of
them live before, leaves the textures, and stores in the record only names it had or names
just generated. -/
theorem uploadFaces_objects (mesh : aiMesh) (info : MeshInfo) (gl : GLState) :
    ∃ more, (uploadFaces mesh info gl).2.buffers = gl.buffers ++ more ∧
      (∀ b ∈ more, b ∉ gl.buffers) ∧
      (uploadFaces mesh info gl).2.textures = gl.textures ∧
      ∀ b ∈ (uploadFaces mesh info gl).1.buffers, b ∈ info.buffers ∨ b ∈ more := by
  unfold uploadFaces
  split
  · refine ⟨[freshName gl.buffers], rfl, ?_, rfl, ?_⟩
    · intro b hb
      rw [List.mem_singleton.1 hb]
      exact freshName_not_mem gl.buffers
    · intro b hb
      simp only [MeshInfo.buffers, glGenBuffers, Option.toList, List.mem_append,
        List.mem_singleton] at hb ⊢
      tauto
  · exact ⟨[], by simp, by simp, rfl, fun b hb => Or.inl hb⟩

theorem uploadPositions_objects (mesh : aiMesh) (info : MeshInfo) (gl : GLState) :
    ∃ more, (uploadPositions mesh info gl).2.buffers = gl.buffers ++ more ∧
      (∀ b ∈ more, b ∉ gl.buffers) ∧
      (uploadPositions mesh info gl).2.textures = gl.textures ∧
      ∀ b ∈ (uploadPositions mesh info gl).1.buffers, b ∈ info.buffers ∨ b ∈ more := by
  unfold uploadPositions
  split
  · refine ⟨[freshName gl.buffers], rfl, ?_, rfl, ?_⟩
    · intro b hb
      rw [List.mem_singleton.1 hb]
      exact freshName_not_mem gl.buffers
    · intro b hb
      simp only [MeshInfo.buffers, glGenBuffers, Option.toList, List.mem_append,
        List.mem_singleton] at hb ⊢
      tauto
  · exact ⟨[], by simp, by simp, rfl, fun b hb => Or.inl hb⟩

theorem uploadTextureCoords_objects (mesh : aiMesh) (info : MeshInfo) (gl : GLState) :
    ∃ more, (uploadTextureCoords mesh info gl).2.buffers = gl.buffers ++ more ∧
      (∀ b ∈ more, b ∉ gl.buffers) ∧
      (uploadTextureCoords mesh info gl).2.textures = gl.textures ∧
      ∀ b ∈ (uploadTextureCoords mesh info gl).1.buffers, b ∈ info.buffers ∨ b ∈ more := by
  unfold uploadTextureCoords
  split
  · refine ⟨[freshName gl.buffers], rfl, ?_, rfl, ?_⟩
    · intro b hb
      rw [List.mem_singleton.1 hb]
      exact freshName_not_mem gl.buffers
    · intro b hb
      simp only [MeshInfo.buffers, glGenBuffers, Option.toList, List.mem_append,
        List.mem_singleton] at hb ⊢
      tauto
  · exact ⟨[], by simp, by simp, rfl, fun b hb => Or.inl hb⟩

theorem buildMesh_objects (scene : aiScene) (s : MeshLoop) (mesh : aiMesh) :
    ∃ more, (buildMesh scene s mesh).gl.buffers = s.gl.buffers ++ more ∧
      (∀ b ∈ more, b ∉ s.gl.buffers) ∧
      (buildMesh scene s mesh).gl.textures = s.gl.textures ∧
      ∀ b ∈ (buildMesh scene s mesh).newMeshInfo.buffers,
        b ∈ s.newMeshInfo.buffers ∨ b ∈ more := by
  obtain ⟨m1, hb1, hf1, ht1, hr1⟩ := uploadFaces_objects mesh s.newMeshInfo s.gl
  obtain ⟨m2, hb2, hf2, ht2, hr2⟩ := uploadPositions_objects mesh
    (uploadFaces mesh s.newMeshInfo s.gl).1 (uploadFaces mesh s.newMeshInfo s.gl).2
  obtain ⟨m3, hb3, hf3, ht3, hr3⟩ := uploadTextureCoords_objects mesh
    (uploadPositions mesh (uploadFaces mesh s.newMeshInfo s.gl).1
      (uploadFaces mesh s.newMeshInfo s.gl).2).1
    (uploadPositions mesh (uploadFaces mesh s.newMeshInfo s.gl).1
      (uploadFaces mesh s.newMeshInfo s.gl).2).2
  refine ⟨m1 ++ m2 ++ m3, ?_, ?_, ?_, ?_⟩
  · show (uploadTextureCoords mesh _ _).2.buffers = _
    rw [hb3, hb2, hb1]
    simp
  · intro b hb hlive
    simp only [List.mem_append] at hb
    rcases hb with (hb | hb) | hb
    · exact hf1 b hb hlive
    · exact hf2 b hb (by rw [hb1]; exact List.mem_append_left _ hlive)
    · exact hf3 b hb (by rw [hb2, hb1]; simp [hlive])
  · show (uploadTextureCoords mesh _ _).2.textures = _
    rw [ht3, ht2, ht1]
  · intro b hb
    have hb' : b ∈ (uploadTextureCoords mesh
        (uploadPositions mesh (uploadFaces mesh s.newMeshInfo s.gl).1
          (uploadFaces mesh s.newMeshInfo s.gl).2).1
        (uploadPositions mesh (uploadFaces mesh s.newMeshInfo s.gl).1
          (uploadFaces mesh s.newMeshInfo s.gl).2).2).1.buffers := hb
    simp only [List.mem_append]
    rcases hr3 b hb' with h | h
    · rcases hr2 b h with h | h
      · rcases hr1 b h with h | h
        · exact Or.inl h
        · exact Or.inr (Or.inl (Or.inl h))
      · exact Or.inr (Or.inl (Or.inr h))
    · exact Or.inr (Or.inr h)

/-- The loop over the meshes appends to the live buffers the names it generates, none of them
live before, and leaves the textures; a record in the list afterwards was there before or
stores only names that `newMeshInfo` held at loop entry or that the loop generated. -/
theorem foldl_buildMesh_objects (scene : aiScene) (meshes : List aiMesh) (s : MeshLoop) :
    ∃ generated, (meshes.foldl (buildMesh scene) s).gl.buffers = s.gl.buffers ++ generated ∧
      (∀ b ∈ generated, b ∉ s.gl.buffers) ∧
      (meshes.foldl (buildMesh scene) s).gl.textures = s.gl.textures ∧
      (∀ b ∈ (meshes.foldl (buildMesh scene) s).newMeshInfo.buffers,
        b ∈ s.newMeshInfo.buffers ∨ b ∈ generated) ∧
      ∀ r ∈ (meshes.foldl (buildMesh scene) s).loader.modelMeshes,
        r ∈ s.loader.modelMeshes ∨
          ∀ b ∈ r.buffers, b ∈ s.newMeshInfo.buffers ∨ b ∈ generated := by
  induction meshes generalizing s with
  | nil => exact ⟨[], by simp, by simp, rfl, fun b hb => Or.inl hb, fun r hr => Or.inl hr⟩
  | cons mesh rest ih =>
    obtain ⟨more, hb, hf, ht, hr⟩ := buildMesh_objects scene s mesh
    obtain ⟨gen, ihb, ihf, iht, ihn, ihr⟩ := ih (buildMesh scene s mesh)
    rw [List.foldl_cons]
    have hnew : ∀ b ∈ (buildMesh scene s mesh).newMeshInfo.buffers,
        b ∈ s.newMeshInfo.buffers ∨ b ∈ more ++ gen := by
      intro b hb'
      rcases hr b hb' with h | h
      · exact Or.inl h
      · exact Or.inr (List.mem_append_left _ h)
    refine ⟨more ++ gen, ?_, ?_, ?_, ?_, ?_⟩
    · rw [ihb, hb, List.append_assoc]
    · intro b hb' hlive
      rcases List.mem_append.1 hb' with h | h
      · exact hf b h hlive
      · exact ihf b h (by rw [hb]; exact List.mem_append_left _ hlive)
    · rw [iht, ht]
    · intro b hb'
      rcases ihn b hb' with h | h
      · exact hnew b h
      · exact Or.inr (List.mem_append_right _ h)
    · intro r hmem
      rcases ihr r hmem with h | h
      · rw [buildMesh_modelMeshes] at h
        rcases List.mem_append.1 h with h | h
        · exact Or.inl h
        · rw [List.mem_singleton.1 h]
          exact Or.inr hnew
      · refine Or.inr (fun b hb' => ?_)
        rcases h b hb' with h | h
        · exact hnew b h
        · exact Or.inr (List.mem_append_right _ h)

/-- The objects after `GenerateGLBuffers`: the textures are those live before; the buffers are
those live before followed by newly generated ones, and every record that was not in the list
before stores only newly generated buffer names. -/
theorem GenerateGLBuffers_objects (scene : aiScene) (loader : AssimpLoader) (gl : GLState) :
    ∃ generated, (GenerateGLBuffers scene loader gl).2.buffers = gl.buffers ++ generated ∧
      (∀ b ∈ generated, b ∉ gl.buffers) ∧
      (GenerateGLBuffers scene loader gl).2.textures = gl.textures ∧
      ∀ r ∈ (GenerateGLBuffers scene loader gl).1.modelMeshes,
        r ∈ loader.modelMeshes ∨ ∀ b ∈ r.buffers, b ∈ generated := by
  obtain ⟨gen, hb, hf, ht, -, hr⟩ := foldl_buildMesh_objects scene scene.mMeshes
    { newMeshInfo := MeshInfo.uninitialized, loader := loader, gl := gl }
  refine ⟨gen, hb, hf, ht, fun r hmem => ?_⟩
  rcases hr r hmem with h | h
  · exact Or.inl h
  · refine Or.inr (fun b hb' => ?_)
    rcases h b hb' with h | h
    · simp [MeshInfo.uninitialized, MeshInfo.buffers] at h
    · exact h

/-- C11: after the two-mesh sample scene has been loaded, in a context with no buffer,
`Delete3DModel` empties the record list and clears the loaded flag, but the five buffers
generated by the load, whose names the records held, are all still live: none has been
released. -/
theorem Delete3DModel_leaves_buffers :
    Sample.context.buffers = [] ∧
    Sample.afterWood.2.1.isObjectLoaded = true ∧
    Sample.afterWood.2.1.modelMeshes.map MeshInfo.buffers = [[1, 2, 3], [4, 5, 3]] ∧
    (Delete3DModel.inContext Sample.afterWood.2.1 Sample.afterWood.2.2).1.modelMeshes = [] ∧
    (Delete3DModel.inContext Sample.afterWood.2.1 Sample.afterWood.2.2).1.isObjectLoaded
      = false ∧
    (Delete3DModel.inContext Sample.afterWood.2.1 Sample.afterWood.2.2).2.buffers
      = [1, 2, 3, 4, 5] := by
  decide

/-- What `Delete3DModel` leaves of a model that a successful `Load3DModel` has loaded from an
empty record list: the record list is empty and the loaded flag cleared, no OpenGL call is
issued, the buffers the load generated, among them every buffer named in a record of the list,
are all still live, and so are the textures. -/
theorem Delete3DModel_releases_no_object (env : Env) (file : String) (loader : AssimpLoader)
    (gl : GLState) (scene : aiScene) (loaded : AssimpLoader) (gl1 : GLState)
    (himport : env.ReadFile file = some scene)
    (hempty : loader.modelMeshes = [])
    (hload : Load3DModel env file loader gl = (true, loaded, gl1)) :
    (Delete3DModel.inContext loaded gl1).1.modelMeshes = [] ∧
    (Delete3DModel.inContext loaded gl1).1.isObjectLoaded = false ∧
    (Delete3DModel.inContext loaded gl1).2.calls = gl1.calls ∧
    (Delete3DModel.inContext loaded gl1).2.textures
      = gl.textures ++ genNames (scene.mMaterials.flatMap fun mtl => mtl.diffuse).dedup.length
          gl.textures ∧
    ∃ generated, (Delete3DModel.inContext loaded gl1).2.buffers = gl.buffers ++ generated ∧
      (∀ b ∈ generated, b ∉ gl.buffers) ∧
      ∀ r ∈ loaded.modelMeshes, ∀ b ∈ r.buffers, b ∈ generated := by
  have himp := Load3DModel_import env file loader gl scene himport
  have hf := LoadTexturesToGL_fields env scene file { loader with scene := some scene } gl
  have ho := LoadTexturesToGL_objects env scene file { loader with scene := some scene } gl
  cases ht : (LoadTexturesToGL env scene file { loader with scene := some scene } gl).1 with
  | false =>
    rw [himp] at hload
    simp [ht] at hload
  | true =>
    rw [himp] at hload
    simp only [ht, if_true, Prod.mk.injEq, true_and] at hload
    obtain ⟨hloaded, hgl⟩ := hload
    obtain ⟨gen, hb, hfresh, htex, hr⟩ := GenerateGLBuffers_objects scene
      (LoadTexturesToGL env scene file { loader with scene := some scene } gl).2.1
      (LoadTexturesToGL env scene file { loader with scene := some scene } gl).2.2
    have hflag : loaded.isObjectLoaded = true := by rw [← hloaded]
    have hlist : (Delete3DModel loaded).modelMeshes = [] ∧
        (Delete3DModel loaded).isObjectLoaded = false :=
      ⟨(Delete3DModel_fields loaded (fun h => by rw [hflag] at h; cases h)).2,
        Delete3DModel_isObjectLoaded loaded⟩
    refine ⟨hlist.1, hlist.2, rfl, ?_, gen, ?_, ?_, ?_⟩
    · show gl1.textures = _
      rw [← hgl, htex, ho.1, registerMaterials_length]
    · show gl1.buffers = _
      rw [← hgl, hb, ho.2]
    · intro b hb'
      rw [← ho.2]
      exact hfresh b hb'
    · intro r hmem b hb'
      rw [← hloaded] at hmem
      rcases hr r hmem with h | h
      · rw [hf.1] at h
        simp [hempty] at h
      · exact h b hb'

/-! ## Lemmas on cutting a list at separators -/

theorem matchesSeperator_eq (c : Char) (sep : List Char) :
    matchesSeperator c sep = decide (c ∈ sep) := by
  induction sep with
  | nil => simp [matchesSeperator]
  | cons x more ih =>
    by_cases h : c = x
    · simp [matchesSeperator, h]
    · simp [matchesSeperator, h, ih]

/-- Cutting at the elements that satisfy `p`: the first piece is the longest prefix free of
them; the other pieces are those of what follows the first such element. -/
theorem splitOnP_eq_takeWhile_cons (p : Char → Bool) (l : List Char) :
    l.splitOnP p = l.takeWhile (fun c => !p c) ::
      (match l.dropWhile (fun c => !p c) with
        | [] => []
        | _ :: rest => rest.splitOnP p) := by
  induction l with
  | nil => rfl
  | cons x xs ih =>
    rw [List.splitOnP_cons]
    cases hx : p x with
    | true => simp [List.takeWhile_cons, List.dropWhile_cons, hx]
    | false =>
      rw [ih]
      simp [List.takeWhile_cons, List.dropWhile_cons, hx, List.modifyHead]

/-- Leading separators add no run. -/
theorem runs_dropWhile (p : Char → Bool) (l : List Char) :
    ((l.dropWhile p).splitOnP p).filter (fun run => decide (run ≠ []))
      = (l.splitOnP p).filter (fun run => decide (run ≠ [])) := by
  induction l with
  | nil => rfl
  | cons x xs ih =>
    cases hx : p x with
    | true =>
      rw [List.dropWhile_cons, List.splitOnP_cons]
      simp only [hx, if_true]
      rw [ih]
      simp
    | false => simp [List.dropWhile_cons, hx]

/-- The first element of what is left after dropping the longest prefix of elements that
satisfy `q` does not satisfy `q`. -/
theorem dropWhile_cons_false (q : Char → Bool) (l : List Char) (c : Char) (rest : List Char)
    (h : l.dropWhile q = c :: rest) : q c = false := by
  induction l with
  | nil => simp at h
  | cons x xs ih =>
    cases hx : q x with
    | true =>
      simp only [List.dropWhile_cons, hx, if_true] at h
      exact ih h
    | false =>
      simp only [List.dropWhile_cons, hx, Bool.false_eq_true, if_false, List.cons.injEq] at h
      rw [← h.1]; exact hx

theorem dropWhile_not_cons (p : Char → Bool) (l : List Char) (c : Char) (rest : List Char)
    (h : l.dropWhile (fun c => !p c) = c :: rest) : p c = true := by
  have := dropWhile_cons_false (fun c => !p c) l c rest h
  simpa using this

/-- The runs of a list: the longest prefix free of separators when it is not empty, then the
runs of what follows that prefix. -/
theorem runs_eq_takeWhile_append (p : Char → Bool) (l : List Char) :
    (l.splitOnP p).filter (fun run => decide (run ≠ []))
      = (if l.takeWhile (fun c => !p c) ≠ [] then [l.takeWhile (fun c => !p c)] else []) ++
        ((l.dropWhile (fun c => !p c)).splitOnP p).filter (fun run => decide (run ≠ [])) := by
  rw [splitOnP_eq_takeWhile_cons p l]
  cases hd : l.dropWhile (fun c => !p c) with
  | nil =>
    by_cases ht : l.takeWhile (fun c => !p c) = []
    · simp [ht]
    · simp [ht]
  | cons c rest =>
    have hc := dropWhile_not_cons p l c rest hd
    by_cases ht : l.takeWhile (fun c => !p c) = []
    · simp [ht, hc]
    · simp [ht, hc]

/-- No piece holds an element that satisfies `p`. -/
theorem splitOnP_free (p : Char → Bool) (n : Nat) :
    ∀ (l : List Char), l.length ≤ n → ∀ t ∈ l.splitOnP p, ∀ c ∈ t, p c = false := by
  induction n with
  | zero =>
    intro l hl t ht c hc
    have : l = [] := List.length_eq_zero.1 (Nat.le_zero.1 hl)
    subst this
    simp at ht
    subst ht
    simp at hc
  | succ n ih =>
    intro l hl t ht c hc
    rw [splitOnP_eq_takeWhile_cons p l] at ht
    rcases List.mem_cons.1 ht with h | h
    · subst h
      have := List.mem_takeWhile_imp hc
      simpa using this
    · cases hd : l.dropWhile (fun c => !p c) with
      | nil => simp [hd] at h
      | cons x rest =>
        simp only [hd] at h
        have hlen := congrArg List.length
          (List.takeWhile_append_dropWhile (fun c => !p c) l)
        rw [hd, List.length_append, List.length_cons] at hlen
        exact ih rest (by omega) t h c hc

theorem length_takeWhile_add (q : Char → Bool) (l : List Char) :
    (l.takeWhile q).length + (l.dropWhile q).length = l.length := by
  have h := congrArg List.length (List.takeWhile_append_dropWhile q l)
  rw [List.length_append] at h
  exact h

theorem drop_length_takeWhile (q : Char → Bool) (l : List Char) :
    l.drop (l.takeWhile q).length = l.dropWhile q := by
  induction l with
  | nil => rfl
  | cons x xs ih =>
    cases hx : q x with
    | true => simp [List.takeWhile_cons, List.dropWhile_cons, hx, ih]
    | false => simp [List.takeWhile_cons, List.dropWhile_cons, hx]

theorem take_length_takeWhile (q : Char → Bool) (l : List Char) :
    l.take (l.takeWhile q).length = l.takeWhile q := by
  induction l with
  | nil => rfl
  | cons x xs ih =>
    cases hx : q x with
    | true => simp [List.takeWhile_cons, hx, ih]
    | false => simp [List.takeWhile_cons, hx]

/-! ## Lemmas on the loops of `split` -/

/-- With more turns than chars from `i` on, the first inner loop is left, after the longest run
of separators that starts at `i`. -/
theorem skipSeperatorsLoop_eq (s sep : List Char) (turns i : Nat) (h : s.length - i < turns) :
    skipSeperatorsLoop s sep turns i
      = some (i + ((s.drop i).takeWhile fun c => matchesSeperator c sep).length) := by
  induction turns generalizing i with
  | zero => omega
  | succ turns ih =>
    unfold skipSeperatorsLoop
    by_cases hi : i < s.length
    · rw [dif_pos hi, List.drop_eq_getElem_cons hi, List.takeWhile_cons]
      cases hm : matchesSeperator s[i] sep with
      | true =>
        simp only [if_true, List.length_cons]
        rw [ih (i + 1) (by omega)]
        congr 1
        omega
      | false => simp
    · rw [dif_neg hi, List.drop_eq_nil_of_le (Nat.le_of_not_lt hi)]
      simp

/-- With more turns than chars from `j` on, the second inner loop is left, after the longest
run free of separators that starts at `j`. -/
theorem findSeperatorLoop_eq (s sep : List Char) (turns j : Nat) (h : s.length - j < turns) :
    findSeperatorLoop s sep turns j
      = some (j + ((s.drop j).takeWhile fun c => !matchesSeperator c sep).length) := by
  induction turns generalizing j with
  | zero => omega
  | succ turns ih =>
    unfold findSeperatorLoop
    by_cases hj : j < s.length
    · rw [dif_pos hj, List.drop_eq_getElem_cons hj, List.takeWhile_cons]
      cases hm : matchesSeperator s[j] sep with
      | true => simp
      | false =>
        simp only [Bool.false_eq_true, if_false, Bool.not_false, if_true, List.length_cons]
        rw [ih (j + 1) (by omega)]
        congr 1
        omega
    · rw [dif_neg hj, List.drop_eq_nil_of_le (Nat.le_of_not_lt hj)]
      simp

/-- The first inner loop is left, at an index not before `i` and not beyond the end, and what
is left of `s` there is what is left from `i` without its leading separators. -/
theorem skipSeperators_spec (s sep : List Char) (i : Nat) (hi : i ≤ s.length) :
    ∃ i1, skipSeperators s sep i = some i1 ∧ i ≤ i1 ∧ i1 ≤ s.length ∧
      s.drop i1 = (s.drop i).dropWhile fun c => matchesSeperator c sep := by
  have h := skipSeperatorsLoop_eq s sep (s.length + 1) i (by omega)
  have hlen := length_takeWhile_add (fun c => matchesSeperator c sep) (s.drop i)
  rw [List.length_drop] at hlen
  refine ⟨_, h, Nat.le_add_right _ _, by omega, ?_⟩
  rw [← List.drop_drop, drop_length_takeWhile]

/-- The second inner loop is left, at an index `j1`; the chars from `j` to `j1` are the longest
run free of separators that starts at `j`, and what is left of `s` at `j1` is what follows that
run. -/
theorem findSeperator_spec (s sep : List Char) (j : Nat) (hj : j ≤ s.length) :
    ∃ j1, findSeperator s sep j = some j1 ∧ j ≤ j1 ∧ j1 ≤ s.length ∧
      j1 - j = ((s.drop j).takeWhile fun c => !matchesSeperator c sep).length ∧
      substr s j (j1 - j) = (s.drop j).takeWhile (fun c => !matchesSeperator c sep) ∧
      s.drop j1 = (s.drop j).dropWhile fun c => !matchesSeperator c sep := by
  have h := findSeperatorLoop_eq s sep (s.length + 1) j (by omega)
  have hlen := length_takeWhile_add (fun c => !matchesSeperator c sep) (s.drop j)
  rw [List.length_drop] at hlen
  refine ⟨_, h, Nat.le_add_right _ _, by omega, Nat.add_sub_cancel_left _ _, ?_, ?_⟩
  · unfold substr
    rw [Nat.add_sub_cancel_left j, take_length_takeWhile]
  · rw [← List.drop_drop, drop_length_takeWhile]

/-- With more turns than chars from `i` on, the outer loop is left, with the index at the end
of `s`, and has appended to the tokens pushed so far the runs of what is left of `s` from
`i`. -/
theorem splitLoop_eq (s sep : List Char) (turns i : Nat) (result : List (List Char))
    (h : s.length - i < turns) (hi : i ≤ s.length) :
    splitLoop s sep turns i result
      = some (s.length, result ++ ((s.drop i).splitOnP fun c => matchesSeperator c sep).filter
          (fun run => decide (run ≠ []))) := by
  induction turns generalizing i result with
  | zero => omega
  | succ turns ih =>
    unfold splitLoop
    by_cases hlt : i < s.length
    · rw [if_pos hlt]
      obtain ⟨i1, hskip, h1, h2, h3⟩ := skipSeperators_spec s sep i hi
      obtain ⟨j, hfind, k1, k2, k3, k4, k5⟩ := findSeperator_spec s sep i1 h2
      simp only [hskip, hfind]
      have hruns := runs_eq_takeWhile_append (fun c => matchesSeperator c sep) (s.drop i1)
      rw [← runs_dropWhile (fun c => matchesSeperator c sep) (s.drop i), ← h3, hruns]
      by_cases htok : ((s.drop i1).takeWhile fun c => !matchesSeperator c sep) = []
      · have hb : j = i1 := by
          rw [htok, List.length_nil] at k3
          omega
        have hnil : s.drop i1 = [] := by
          cases hd : s.drop i1 with
          | nil => rfl
          | cons c rest =>
            have hc := dropWhile_cons_false (fun c => matchesSeperator c sep) (s.drop i) c rest
              (by rw [← h3, hd])
            rw [hd, List.takeWhile_cons] at htok
            simp [hc] at htok
        have hend : s.length ≤ i1 := by
          have := congrArg List.length hnil
          rw [List.length_drop, List.length_nil] at this
          omega
        rw [if_neg (by rw [hb]; exact fun hne => hne rfl)]
        rw [ih i1 result (by omega) h2, hruns]
      · have hb : i1 ≠ j := by
          intro heq
          rw [← heq, Nat.sub_self] at k3
          exact htok (List.length_eq_zero.1 k3.symm)
        have hpos : i1 < j := Nat.lt_of_le_of_ne k1 hb
        rw [if_pos hb, ih _ _ (by omega) k2, k4, k5]
        simp [htok]
    · rw [if_neg hlt, List.drop_eq_nil_of_le (Nat.le_of_not_lt hlt)]
      have : i = s.length := by omega
      simp [this]

/-- C13: for every string `s` and every separator string `sep`, empty ones included, `split`
terminates and returns, from left to right, exactly the maximal non-empty runs of chars of `s`
that are not chars of `sep`: within `s.size() + 1` turns, and with any larger number of turns,
the outer loop is left by its guard, with the index at `s.size()` and these runs as tokens (a
loop that is not left gives no result); no token is empty and no token holds a char of
`sep`. -/
theorem split_returns_maximal_runs (s sep : List Char) :
    split s sep = some (maximalRuns s sep) ∧
    (∀ (turns : Nat), s.length + 1 ≤ turns →
      splitLoop s sep turns 0 [] = some (s.length, maximalRuns s sep)) ∧
    ∀ (tokens : List (List Char)), split s sep = some tokens →
      ∀ t ∈ tokens, t ≠ [] ∧ ∀ c ∈ t, c ∉ sep := by
  have hq : (fun c => matchesSeperator c sep) = fun c => decide (c ∈ sep) :=
    funext fun c => matchesSeperator_eq c sep
  have hloop : ∀ (turns : Nat), s.length + 1 ≤ turns →
      splitLoop s sep turns 0 [] = some (s.length, maximalRuns s sep) := by
    intro turns hturns
    rw [splitLoop_eq s sep turns 0 [] (by omega) (Nat.zero_le _), hq]
    simp [maximalRuns]
  have hsplit : split s sep = some (maximalRuns s sep) := by
    unfold split
    rw [hloop (s.length + 1) (Nat.le_refl _)]
    rfl
  refine ⟨hsplit, hloop, ?_⟩
  · intro tokens htokens t ht
    rw [hsplit] at htokens
    cases htokens
    simp only [maximalRuns, List.mem_filter, decide_eq_true_eq] at ht
    refine ⟨ht.2, fun c hc hmem => ?_⟩
    have hfree := splitOnP_free (fun c => decide (c ∈ sep)) s.length s (Nat.le_refl _) t ht.1
      c hc
    simp [hmem] at hfree

/-- C13, on the example of the claim and on the call of `ResetModel`, whose separator is "&":
the loop is left with the index at 6, the length of the string, and leading, trailing and
repeated separators produce no token. -/
theorem split_returns_maximal_runs_witness :
    split "&a&&b&".toList "&".toList = some ["a".toList, "b".toList] ∧
    splitLoop "&a&&b&".toList "&".toList 9 0 [] = some (6, ["a".toList, "b".toList]) ∧
    ∀ t ∈ ["a".toList, "b".toList], t ≠ [] ∧ ∀ c ∈ t, c ∉ "&".toList :=
  have h := split_returns_maximal_runs "&a&&b&".toList "&".toList
  ⟨h.1.trans (by decide), (h.2.1 9 (by decide)).trans (by decide),
    h.2.2 ["a".toList, "b".toList] (by decide)⟩

end AssimpOpengl
